import Mathlib

/-!
Verification development for the hybrid retrieval and synthesis core of the
CHW clinical decision-support repository (`extraction/src`).

Modelling conventions (shallow embedding):
* Python strings are embedded as `List Char` (`Str`); `lower`/`upper`/`strip`/
  `split`/`join`/`in` become structurally recursive Lean functions below.
* Python floats (similarity scores, BM25 scores, RRF scores) are embedded as
  exact rationals `ℚ`; the arithmetic the code performs on them
  (`1.0 - distance`, `abs`, `1.0 / (RRF_K + rank + 1)`, sums) is exact.
* Python's `sorted`/`list.sort` are stable sorts; any stable sort computes the
  same list, and we use Mathlib's (stable) `List.insertionSort`.
* The SQLite database and the generation backend are external collaborators:
  they are embedded as oracle fields of `SearchEnv` (what the vector / FTS
  queries return) and as a `backend : Str → Str` function.  The parts of the
  SQL queries that the Python code itself is responsible for (the category
  filter of the keyword query, the `k*3` candidate request of the vector
  query, the `LIMIT`) are modelled explicitly.
-/

/-- Python `str` is embedded as a list of characters. -/
abbrev Str := List Char

/-- Python `s.lower()` (the lexicon and the corpus are ASCII). -/
def strLower (s : Str) : Str := s.map Char.toLower

/-- Python `s.upper()`. -/
def strUpper (s : Str) : Str := s.map Char.toUpper

/-- Python `s.strip()`: drop whitespace from both ends. -/
def strTrim (s : Str) : Str :=
  ((s.dropWhile Char.isWhitespace).reverse.dropWhile Char.isWhitespace).reverse

/-- Python `s.split()` (no argument): split on whitespace runs, dropping empties. -/
def splitWs (s : Str) : List Str :=
  (s.splitOnP Char.isWhitespace).filter (fun t => !t.isEmpty)

/-- Python `needle in hay` on strings: substring containment. -/
def containsSub (hay needle : Str) : Bool :=
  hay.tails.any (fun t => needle.isPrefixOf t)

/-- Specification-side substring predicate: `needle` occurs inside `hay`. -/
def OccursIn (needle hay : Str) : Prop := ∃ p q : Str, hay = p ++ needle ++ q

/-- Decimal digit character. -/
def digitChar (d : Nat) : Char := Char.ofNat (48 + d)

/-- Decimal digits of a natural number (fuel-based so the kernel can reduce it). -/
def natStrAux : Nat → Nat → Str
  | 0, _ => []
  | fuel + 1, n => if n < 10 then [digitChar n] else natStrAux fuel (n / 10) ++ [digitChar (n % 10)]

/-- Python `str(n)` for a natural number. -/
def natStr (n : Nat) : Str := natStrAux (n + 1) n

/-- Python `str(i)` for an integer. -/
def intStr : Int → Str
  | Int.ofNat n => natStr n
  | Int.negSucc n => '-' :: natStr (n + 1)

-- --- Data classes (medgemma_synthesis.py) ---

/-- `SearchResult` from `medgemma_synthesis.py`. -/
structure SearchResult where
  chunk_id : Str
  content : Str
  headings : List Str
  page_number : Option Int
  score : ℚ
  source : Str
deriving DecidableEq

/-- `ChunkContext` from `clinical_prompts.py`. -/
structure ChunkContext where
  content : Str
  headings : List Str
  page_number : Option Int
  score : ℚ
deriving DecidableEq

/-- `HighRiskAlertContext` from `clinical_prompts.py`. -/
structure HighRiskAlertContext where
  term : Str
  category : Str
  severity : Str
deriving DecidableEq

/-- A row returned by the vector-search SQL query of `search_vector`
(join of `embeddings`, `chunks` and `chunk_metadata`; `headings_json` is
modelled post-`json.loads`). -/
structure VRow where
  chunk_id : Str
  distance : ℚ
  content : Str
  page_number : Option Int
  category : Str
  headings_json : Option (List Str)
deriving DecidableEq

/-- A row of the FTS5 join of `search_keyword` before the Python-visible
`WHERE c.category = 'content'` filter and `LIMIT` are applied. -/
structure KRow where
  chunk_id : Str
  content : Str
  page_number : Option Int
  category : Str
  headings_json : Option (List Str)
  bm25_score : ℚ
deriving DecidableEq

/-- The environment of `BrainOneSearch`: availability flags and database
oracles. `vecOracle q n` is what the sqlite-vec `MATCH ... AND k = n` query
returns (ordered by distance, at most `n` rows); `ftsJoined fq` is what the
FTS5 `MATCH fq` join returns in BM25 order, before the category filter and
limit; `ftsOk = false` models the `sqlite3.OperationalError` path;
`lexicon` is the loaded `high_risk_terms` table. -/
structure SearchEnv where
  hasEmbedder : Bool
  hasVec : Bool
  vecOracle : Str → Nat → List VRow
  ftsOk : Bool
  ftsJoined : Str → List KRow
  lexicon : List (Str × Str × Str)

-- --- search_vector ---

/-- The row filter of `search_vector`'s Python loop: skip `metadata` chunks and
chunks whose stripped content is shorter than 50 characters. -/
def vecKeep (r : VRow) : Bool :=
  !(r.category == "metadata".data) && !(decide ((strTrim r.content).length < 50))

/-- Build the `SearchResult` that `search_vector` appends for a surviving row. -/
def mkVecResult (r : VRow) : SearchResult :=
  { chunk_id := r.chunk_id
    content := r.content
    headings := r.headings_json.getD []
    page_number := r.page_number
    score := 1 - r.distance
    source := "vector".data }

/-- The accumulation loop of `search_vector`: `continue` on filtered rows,
append otherwise, `break` as soon as `len(results) >= k` after an append. -/
def vecLoop (k : Nat) : List VRow → List SearchResult → List SearchResult
  | [], acc => acc.reverse
  | r :: rs, acc =>
    if r.category == "metadata".data then vecLoop k rs acc
    else if (strTrim r.content).length < 50 then vecLoop k rs acc
    else if acc.length + 1 ≥ k then (mkVecResult r :: acc).reverse
    else vecLoop k rs (mkVecResult r :: acc)

/-- `BrainOneSearch.search_vector` with the vector index as an oracle: returns
`[]` when the embedder or sqlite-vec is unavailable, otherwise requests `k * 3`
candidates and runs the filter loop.  The `Bool` records whether the vector
index was contacted. -/
def search_vectorT (env : SearchEnv) (query : Str) (k : Nat) :
    List SearchResult × Bool :=
  if !env.hasEmbedder || !env.hasVec then ([], false)
  else (vecLoop k (env.vecOracle query (k * 3)) [], true)

/-- `BrainOneSearch.search_vector` (result component). -/
def search_vector (env : SearchEnv) (query : Str) (k : Nat) : List SearchResult :=
  (search_vectorT env query k).1

-- --- search_keyword ---

/-- `terms = query.strip().split()`. -/
def queryTerms (query : Str) : List Str := splitWs (strTrim query)

/-- `fts_query = " OR ".join(f'"{term}"' for term in terms)`. -/
def ftsQueryString (query : Str) : Str :=
  List.intercalate " OR ".data ((queryTerms query).map (fun t => '"' :: (t ++ ['"'])))

/-- The rows the keyword SQL query yields to Python: the FTS join in BM25
order, restricted by `WHERE c.category = 'content'` and `LIMIT k`. -/
def keywordRows (env : SearchEnv) (query : Str) (k : Nat) : List KRow :=
  (((env.ftsJoined (ftsQueryString query)).filter
      (fun r => r.category == "content".data)).take k)

/-- Build the `SearchResult` of a keyword row: `score = abs(bm25_score)`. -/
def mkKeywordResult (r : KRow) : SearchResult :=
  { chunk_id := r.chunk_id
    content := r.content
    headings := r.headings_json.getD []
    page_number := r.page_number
    score := |r.bm25_score|
    source := "keyword".data }

/-- `BrainOneSearch.search_keyword`: empty term list returns `[]` before any
database access; the `except sqlite3.OperationalError` path returns `[]`
after contacting the index.  The `Bool` records whether the FTS index was
contacted. -/
def search_keywordT (env : SearchEnv) (query : Str) (k : Nat) :
    List SearchResult × Bool :=
  if (queryTerms query).isEmpty then ([], false)
  else if !env.ftsOk then ([], true)
  else ((keywordRows env query k).map mkKeywordResult, true)

/-- `BrainOneSearch.search_keyword` (result component). -/
def search_keyword (env : SearchEnv) (query : Str) (k : Nat) : List SearchResult :=
  (search_keywordT env query k).1

-- --- search_hybrid: RRF fusion ---

/-- `RRF_K = 60` (medgemma_synthesis.py). -/
def RRF_K : ℚ := 60

/-- The RRF contribution `1.0 / (RRF_K + rank + 1)` of a zero-based rank. -/
def rrfScore (rank : Nat) : ℚ := 1 / (RRF_K + (rank : ℚ) + 1)

/-- An entry of the `scores` dict: `chunk_id -> (rrf_score, SearchResult)`.
Python dicts preserve insertion order, so the dict is an association list. -/
abbrev RRFEntry := Str × ℚ × SearchResult

/-- Key lookup in the association list. -/
def hasKey (m : List RRFEntry) (cid : Str) : Bool := m.any (fun e => e.1 == cid)

/-- The vector pass of the fusion loop: on a repeated key the score is
accumulated and the stored result replaced by the new one; a fresh key is
appended (dict insertion order). -/
def rrfInsertVec (m : List RRFEntry) (cid : Str) (s : ℚ) (r : SearchResult) :
    List RRFEntry :=
  if hasKey m cid then m.map (fun e => if e.1 == cid then (e.1, e.2.1 + s, r) else e)
  else m ++ [(cid, s, r)]

/-- The keyword pass of the fusion loop: on a repeated key the score is
accumulated and the stored result kept (`scores[...][1]`). -/
def rrfInsertKw (m : List RRFEntry) (cid : Str) (s : ℚ) (r : SearchResult) :
    List RRFEntry :=
  if hasKey m cid then m.map (fun e => if e.1 == cid then (e.1, e.2.1 + s, e.2.2) else e)
  else m ++ [(cid, s, r)]

/-- One step of `for rank, result in enumerate(vector_results)`. -/
def rrfStep1 (m : List RRFEntry) (p : Nat × SearchResult) : List RRFEntry :=
  rrfInsertVec m p.2.chunk_id (rrfScore p.1) p.2

/-- One step of `for rank, result in enumerate(keyword_results)`. -/
def rrfStep2 (m : List RRFEntry) (p : Nat × SearchResult) : List RRFEntry :=
  rrfInsertKw m p.2.chunk_id (rrfScore p.1) p.2

/-- The `scores` dict after both fusion passes. -/
def rrfState (v kw : List SearchResult) : List RRFEntry :=
  kw.enum.foldl rrfStep2 (v.enum.foldl rrfStep1 [])

/-- The comparison of `sorted(scores.values(), key=lambda x: x[0], reverse=True)`:
descending by fused score; Python's sort is stable, so ties keep insertion
order, which `List.insertionSort` reproduces. -/
def scoreDesc (a b : ℚ × SearchResult) : Prop := b.1 ≤ a.1

instance : DecidableRel scoreDesc := fun a b => inferInstanceAs (Decidable (b.1 ≤ a.1))

instance : IsTotal (ℚ × SearchResult) scoreDesc := ⟨fun a b => le_total b.1 a.1⟩

instance : IsTrans (ℚ × SearchResult) scoreDesc := ⟨fun _ _ _ h1 h2 => le_trans h2 h1⟩

/-- Final emission of `search_hybrid`: `source = "hybrid"`, fused score,
metadata of the stored result. -/
def mkHybrid (p : ℚ × SearchResult) : SearchResult :=
  { chunk_id := p.2.chunk_id
    content := p.2.content
    headings := p.2.headings
    page_number := p.2.page_number
    score := p.1
    source := "hybrid".data }

/-- The RRF fuser of `search_hybrid` applied to the two sub-search results. -/
def rrfFuse (v kw : List SearchResult) (top_k : Nat) : List SearchResult :=
  (((rrfState v kw).map (fun e => e.2)).insertionSort scoreDesc).take top_k
    |>.map mkHybrid

/-- `BrainOneSearch.search_hybrid`: runs both sub-searches with `k = 15`
unconditionally, then fuses.  The two `Bool`s record whether the vector index
and the FTS index were contacted by the sub-searches. -/
def search_hybridT (env : SearchEnv) (query : Str) (top_k : Nat) :
    List SearchResult × Bool × Bool :=
  let v := search_vectorT env query 15
  let kw := search_keywordT env query 15
  (rrfFuse v.1 kw.1 top_k, v.2, kw.2)

/-- `BrainOneSearch.search_hybrid` (result component). -/
def search_hybrid (env : SearchEnv) (query : Str) (top_k : Nat) : List SearchResult :=
  (search_hybridT env query top_k).1

-- --- Specification-side description of the RRF fusion (spec.md §4.5) ---

/-- Sum of RRF contributions of a chunk id over an enumerated result list. -/
def contribP (l : List (Nat × SearchResult)) (cid : Str) : ℚ :=
  ((l.filter (fun p => p.2.chunk_id == cid)).map (fun p => rrfScore p.1)).sum

/-- Spec: the fused score of a chunk id is the sum of `1 / (60 + rank + 1)`
over its zero-based ranks in the vector list and in the keyword list. -/
def specRRFScore (v kw : List SearchResult) (cid : Str) : ℚ :=
  contribP v.enum cid + contribP kw.enum cid

/-- Spec: results in order of first observation, one per distinct chunk id. -/
def firstObserved : List SearchResult → List Str → List SearchResult
  | [], _ => []
  | r :: rs, seen =>
    if seen.contains r.chunk_id then firstObserved rs seen
    else r :: firstObserved rs (r.chunk_id :: seen)

/-- Spec-side description of `search_hybrid` built from the words of the spec:
take the distinct chunk ids in order of first observation (vector list before
keyword list), give each its summed RRF score, stable-sort descending by fused
score, truncate to `top_k`, and emit hybrid results carrying the metadata of
the first-observed occurrence. -/
def specHybrid (v kw : List SearchResult) (top_k : Nat) : List SearchResult :=
  ((((firstObserved (v ++ kw) []).map
        (fun r => (specRRFScore v kw r.chunk_id, r))).insertionSort scoreDesc).take top_k)
    |>.map mkHybrid

-- --- detect_high_risk (the Alerter) ---

/-- The loop body of `detect_high_risk`: scan lexicon entries in order,
emitting an alert when the lowercased term occurs in the joined content and
the term has not been seen yet. -/
def detectLoop (all_content : Str) :
    List (Str × Str × Str) → List Str → List HighRiskAlertContext
  | [], _ => []
  | (term, category, severity) :: rest, seen =>
    if containsSub all_content (strLower term) && !(seen.contains term) then
      ⟨term, category, severity⟩ :: detectLoop all_content rest (term :: seen)
    else detectLoop all_content rest seen

/-- The sort key rank of an alert: `0 if a.severity == "High" else 1`. -/
def sevRank (a : HighRiskAlertContext) : Nat := if a.severity == "High".data then 0 else 1

/-- The comparison of `alerts.sort(key=lambda a: (0 if a.severity == "High"
else 1, a.term))`: lexicographic on the key tuple. -/
def alertLe (a b : HighRiskAlertContext) : Prop :=
  sevRank a < sevRank b ∨ (sevRank a = sevRank b ∧ a.term ≤ b.term)

instance : DecidableRel alertLe := fun a b =>
  inferInstanceAs (Decidable (sevRank a < sevRank b ∨ (sevRank a = sevRank b ∧ a.term ≤ b.term)))

instance : IsTotal HighRiskAlertContext alertLe := by
  constructor
  intro a b
  rcases Nat.lt_trichotomy (sevRank a) (sevRank b) with h | h | h
  · exact Or.inl (Or.inl h)
  · rcases le_total a.term b.term with ht | ht
    · exact Or.inl (Or.inr ⟨h, ht⟩)
    · exact Or.inr (Or.inr ⟨h.symm, ht⟩)
  · exact Or.inr (Or.inl h)

instance : IsTrans HighRiskAlertContext alertLe := by
  constructor
  intro a b c hab hbc
  rcases hab with h1 | ⟨h1, t1⟩
  · rcases hbc with h2 | ⟨h2, _⟩
    · exact Or.inl (lt_trans h1 h2)
    · exact Or.inl (h2 ▸ h1)
  · rcases hbc with h2 | ⟨h2, t2⟩
    · exact Or.inl (h1 ▸ h2)
    · exact Or.inr ⟨h1.trans h2, le_trans t1 t2⟩

/-- `BrainOneSearch.detect_high_risk`: join lowercased contents with spaces,
scan the lexicon with deduplication, then stable-sort High before Medium and
by term within a severity. -/
def detect_high_risk (lexicon : List (Str × Str × Str))
    (results : List SearchResult) : List HighRiskAlertContext :=
  let all_content := List.intercalate " ".data (results.map (fun r => strLower r.content))
  (detectLoop all_content lexicon []).insertionSort alertLe

-- --- clinical_prompts.py ---

/-- `" > ".join(chunk.headings) if chunk.headings else "General"`. -/
def headingPath (headings : List Str) : Str :=
  if headings.isEmpty then "General".data else List.intercalate " > ".data headings

/-- `f" (p.{chunk.page_number})" if chunk.page_number else ""` — note Python
truthiness: both `None` and page `0` yield the empty string. -/
def pageInfo (page_number : Option Int) : Str :=
  match page_number with
  | none => []
  | some p => if p = 0 then [] else " (p.".data ++ intStr p ++ [')']

/-- The formatted entry `f"[{i}] {heading_path}{page_info}\n{chunk.content}"`. -/
def chunkEntry (i : Nat) (c : ChunkContext) : Str :=
  '[' :: (natStr i ++ (']' :: (' ' :: (headingPath c.headings ++ pageInfo c.page_number
    ++ ('\n' :: c.content)))))

/-- The accumulation loop of `format_chunks_for_prompt`: break before the first
entry that would push the accumulated entry length over `max_chars`. -/
def fmtLoop (max_chars : Nat) :
    List (Nat × ChunkContext) → List Str → Nat → List Str
  | [], formatted, _ => formatted.reverse
  | (i, c) :: rest, formatted, total =>
    let entry := chunkEntry i c
    if max_chars < total + entry.length then formatted.reverse
    else fmtLoop max_chars rest (entry :: formatted) (total + entry.length)

/-- `format_chunks_for_prompt(chunks, max_chars)`: numbered entries starting
at 1, joined with blank lines, whole-chunk truncation at the budget. -/
def format_chunks_for_prompt (chunks : List ChunkContext) (max_chars : Nat) : Str :=
  List.intercalate "\n\n".data (fmtLoop max_chars (List.enumFrom 1 chunks) [] 0)

/-- `format_alerts_for_prompt`: High terms as DANGER SIGNS, Medium as Caution. -/
def format_alerts_for_prompt (alerts : List HighRiskAlertContext) : Str :=
  if alerts.isEmpty then [] else
  let high := alerts.filter (fun a => a.severity == "High".data)
  let medium := alerts.filter (fun a => a.severity == "Medium".data)
  let lines :=
    (if high.isEmpty then []
     else ["DANGER SIGNS DETECTED: ".data ++ List.intercalate ", ".data (high.map (fun a => a.term))])
    ++
    (if medium.isEmpty then []
     else ["Caution terms found: ".data ++ List.intercalate ", ".data (medium.map (fun a => a.term))])
  List.intercalate "\n".data lines

/-- `synthesis_prompt(query, chunks, alerts, max_context_chars)`. -/
def synthesis_prompt (query : Str) (chunks : List ChunkContext)
    (alerts : Option (List HighRiskAlertContext)) (max_context_chars : Nat) : Str :=
  let context := format_chunks_for_prompt chunks max_context_chars
  let alert_text := format_alerts_for_prompt (alerts.getD [])
  let alert_section :=
    if alert_text.isEmpty then []
    else "\n⚠️ SAFETY ALERTS:\n".data ++ alert_text
      ++ "\nYou MUST prominently address these safety concerns in your response.\n".data
  "You are a clinical decision support assistant for Community Health Workers (CHWs) in Uganda. Your role is to synthesize clinical guidelines into clear, actionable guidance.\n\nCLINICAL GUIDELINE EXCERPTS:\n".data
    ++ context ++ ('\n' :: alert_section)
    ++ "\nCHW QUESTION: ".data ++ query
    ++ "\n\nINSTRUCTIONS:\n1. Answer ONLY using information from the guideline excerpts above\n2. Use simple, clear language appropriate for CHWs with basic medical training\n3. Structure your response with clear sections when appropriate\n4. Include specific dosages, age ranges, and treatment steps when available\n5. If danger signs are mentioned, list them prominently at the top\n6. If the guidelines do not contain enough information to answer, say so clearly\n7. NEVER fabricate clinical information not present in the excerpts\n8. Include relevant page references using [p.X] format\n\nProvide a concise clinical summary (150-300 words):".data

/-- `guardrail_prompt(query, summary, chunks, max_context_chars)`. -/
def guardrail_prompt (query summary : Str) (chunks : List ChunkContext)
    (max_context_chars : Nat) : Str :=
  let context := format_chunks_for_prompt chunks max_context_chars
  "You are a clinical safety validator. Your job is to verify that a generated clinical summary is grounded in source guidelines and is safe for Community Health Workers.\n\nSOURCE GUIDELINES:\n".data
    ++ context
    ++ "\n\nQUESTION: ".data ++ query
    ++ "\n\nGENERATED SUMMARY:\n".data ++ summary
    ++ "\n\nVALIDATION CRITERIA:\n1. GROUNDING: Every clinical claim in the summary must be supported by the source guidelines\n2. ACCURACY: Dosages, age ranges, and treatment steps must exactly match the sources\n3. COMPLETENESS: Critical safety information (danger signs, referral criteria) must not be omitted\n4. NO FABRICATION: The summary must not contain clinical information absent from the sources\n5. APPROPRIATE SCOPE: The summary should not recommend actions beyond CHW scope of practice\n\nFor each criterion, evaluate PASS or FAIL with a brief explanation.\n\nRespond in this exact format:\nGROUNDING: [PASS/FAIL] - [explanation]\nACCURACY: [PASS/FAIL] - [explanation]\nCOMPLETENESS: [PASS/FAIL] - [explanation]\nNO_FABRICATION: [PASS/FAIL] - [explanation]\nAPPROPRIATE_SCOPE: [PASS/FAIL] - [explanation]\n\nOVERALL: [PASS/FAIL]\nREASON: [one sentence summary if FAIL]".data

-- --- Brain 2 and the pipeline ---

/-- Conversion of a `SearchResult` into a `ChunkContext` (done by both
`synthesize` and `validate_guardrail`). -/
def toChunkContext (c : SearchResult) : ChunkContext :=
  { content := c.content, headings := c.headings, page_number := c.page_number, score := c.score }

/-- `BrainTwoSynthesis.synthesize`: build contexts, pass `None` when there are
no alerts, call the backend on the synthesis prompt (default budget 4000). -/
def synthesize (backend : Str → Str) (query : Str) (chunks : List SearchResult)
    (alerts : List HighRiskAlertContext) : Str :=
  backend (synthesis_prompt query (chunks.map toChunkContext)
    (if alerts.isEmpty then none else some alerts) 4000)

/-- `BrainTwoSynthesis.validate_guardrail`: build the guardrail prompt (budget
3000), call the backend, and parse `passed = "OVERALL: PASS" in
validation.upper()`; the full validation text is returned alongside. -/
def validate_guardrail (backend : Str → Str) (query summary : Str)
    (chunks : List SearchResult) : Bool × Str :=
  let validation := backend (guardrail_prompt query summary (chunks.map toChunkContext) 3000)
  (containsSub (strUpper validation) ("OVERALL: PASS".data), validation)

/-- `SynthesisResult` (wall-clock timing fields are not modelled). -/
structure SynthesisResult where
  query : Str
  summary : Str
  chunks_used : List SearchResult
  alerts : List HighRiskAlertContext
  guardrail_result : Option Str
  guardrail_passed : Option Bool

/-- `ClinicalRAGPipeline.query`: search, alert, synthesize (unconditionally),
optionally validate. -/
def pipelineQuery (env : SearchEnv) (backend : Str → Str) (query : Str)
    (top_k : Nat) (run_guardrail : Bool) : SynthesisResult :=
  let chunks := search_hybrid env query top_k
  let alerts := detect_high_risk env.lexicon chunks
  let summary := synthesize backend query chunks alerts
  let g := if run_guardrail then some (validate_guardrail backend query summary chunks) else none
  { query := query
    summary := summary
    chunks_used := chunks
    alerts := alerts
    guardrail_result := g.map (fun p => p.2)
    guardrail_passed := g.map (fun p => p.1) }

-- --- database.py: store model for populate_fts5 / populate_high_risk_terms /
-- insert_chunk ---

/-- A row of the `chunks` table. -/
structure ChunkRow where
  chunk_id : Str
  doc_id : Str
  content : Str
  contextualized_text : Str
  chunk_type : Str
  page_number : Option Int
  category : Str
deriving DecidableEq

/-- A row of the `chunk_metadata` table (`bbox_json` kept as serialized text). -/
structure ChunkMetaRow where
  chunk_id : Str
  headings_json : List Str
  bbox_json : Option Str
  element_label : Str
deriving DecidableEq

/-- A row of the `high_risk_terms` table; `term_id` is the
`INTEGER PRIMARY KEY AUTOINCREMENT` column. -/
structure HrtRow where
  term_id : Nat
  term : Str
  category : Str
  severity : Str
deriving DecidableEq

/-- A row of the `documents` table (only the key matters for these claims). -/
structure DocRow where
  doc_id : Str
deriving DecidableEq

/-- `ChunkData` from `database.py`. -/
structure ChunkData where
  chunk_id : Str
  content : Str
  contextualized_text : Str
  chunk_type : Str
  page_number : Option Int
  headings : List Str
  bbox : Option Str
  element_label : Str
  category : Str
deriving DecidableEq

/-- The observable store state.  `hrtNextId` models the AUTOINCREMENT
sequence of `high_risk_terms`: SQLite's `AUTOINCREMENT` keyword keeps the
sequence in `sqlite_sequence`, so ids are never reused even after
`DELETE FROM high_risk_terms`.  (`chunks_fts` is declared without
`AUTOINCREMENT`, so after `DELETE FROM chunks_fts` its rowids restart and
carry no extra state.) -/
structure GuidelineDB where
  documents : List DocRow
  chunks : List ChunkRow
  chunk_metadata : List ChunkMetaRow
  fts : List (Str × Str)
  high_risk_terms : List HrtRow
  hrtNextId : Nat

/-- `GuidelineDatabase.HIGH_RISK_TERMS` (database.py), verbatim. -/
def HIGH_RISK_TERMS : List (Str × Str × Str) :=
  [("danger sign".data, "General".data, "High".data),
   ("danger signs".data, "General".data, "High".data),
   ("life-threatening".data, "General".data, "High".data),
   ("life threatening".data, "General".data, "High".data),
   ("severe".data, "General".data, "Medium".data),
   ("refer immediately".data, "Referral".data, "High".data),
   ("emergency referral".data, "Referral".data, "High".data),
   ("refer to health facility".data, "Referral".data, "Medium".data),
   ("refer to hospital".data, "Referral".data, "High".data),
   ("urgent referral".data, "Referral".data, "High".data),
   ("convulsions".data, "Neurological".data, "High".data),
   ("convulsion".data, "Neurological".data, "High".data),
   ("unconscious".data, "Neurological".data, "High".data),
   ("loss of consciousness".data, "Neurological".data, "High".data),
   ("severe headache".data, "Neurological".data, "Medium".data),
   ("altered consciousness".data, "Neurological".data, "High".data),
   ("coma".data, "Neurological".data, "High".data),
   ("not able to drink".data, "Pediatric".data, "High".data),
   ("unable to drink".data, "Pediatric".data, "High".data),
   ("not able to breastfeed".data, "Pediatric".data, "High".data),
   ("unable to breastfeed".data, "Pediatric".data, "High".data),
   ("severe malnutrition".data, "Pediatric".data, "High".data),
   ("severe pneumonia".data, "Respiratory".data, "High".data),
   ("chest indrawing".data, "Respiratory".data, "High".data),
   ("difficulty breathing".data, "Respiratory".data, "High".data),
   ("respiratory distress".data, "Respiratory".data, "High".data),
   ("stridor".data, "Respiratory".data, "High".data),
   ("vaginal bleeding".data, "Maternal".data, "High".data),
   ("fits in pregnancy".data, "Maternal".data, "High".data),
   ("severe headache in pregnancy".data, "Maternal".data, "High".data),
   ("blurred vision in pregnancy".data, "Maternal".data, "High".data),
   ("eclampsia".data, "Maternal".data, "High".data),
   ("pre-eclampsia".data, "Maternal".data, "High".data),
   ("postpartum hemorrhage".data, "Maternal".data, "High".data),
   ("severe dehydration".data, "Dehydration".data, "High".data),
   ("signs of dehydration".data, "Dehydration".data, "Medium".data),
   ("severe anaemia".data, "Hematologic".data, "High".data),
   ("severe anemia".data, "Hematologic".data, "High".data),
   ("persistent vomiting".data, "Gastrointestinal".data, "High".data),
   ("bloody diarrhoea".data, "Gastrointestinal".data, "High".data),
   ("bloody diarrhea".data, "Gastrointestinal".data, "High".data),
   ("not able to eat".data, "Pediatric".data, "High".data),
   ("high fever".data, "General".data, "Medium".data),
   ("do not treat".data, "Scope".data, "High".data),
   ("beyond scope".data, "Scope".data, "Medium".data),
   ("requires specialist".data, "Scope".data, "Medium".data)]

/-- Assign consecutive AUTOINCREMENT ids starting from `n`. -/
def assignIds : Nat → List (Str × Str × Str) → List HrtRow
  | _, [] => []
  | n, t :: ts => ⟨n, t.1, t.2.1, t.2.2⟩ :: assignIds (n + 1) ts

/-- `GuidelineDatabase.populate_fts5`: `DELETE FROM chunks_fts` then repopulate
from the `chunks` table. -/
def populate_fts5 (db : GuidelineDB) : GuidelineDB :=
  { db with fts := db.chunks.map (fun c => (c.chunk_id, c.content)) }

/-- `GuidelineDatabase.populate_high_risk_terms`: `DELETE FROM high_risk_terms`
then insert the curated list; AUTOINCREMENT ids continue from the persisted
sequence. -/
def populate_high_risk_terms (db : GuidelineDB) : GuidelineDB :=
  { db with
      high_risk_terms := assignIds db.hrtNextId HIGH_RISK_TERMS
      hrtNextId := db.hrtNextId + HIGH_RISK_TERMS.length }

/-- `GuidelineDatabase.insert_chunk`.  The `chunk_id` PRIMARY KEYs of `chunks`
and `chunk_metadata` are enforced by SQLite; the declared
`FOREIGN KEY (doc_id) REFERENCES documents(doc_id)` is NOT enforced, because
`GuidelineDatabase.__init__` never issues `PRAGMA foreign_keys = ON` (SQLite
leaves foreign-key enforcement off by default), so the insert succeeds even
when no document with `doc_id` exists. -/
def insert_chunk (db : GuidelineDB) (doc_id : Str) (chunk : ChunkData) :
    Except Str GuidelineDB :=
  if db.chunks.any (fun c => c.chunk_id == chunk.chunk_id) then
    Except.error ("UNIQUE constraint failed: chunks.chunk_id".data)
  else if db.chunk_metadata.any (fun m => m.chunk_id == chunk.chunk_id) then
    Except.error ("UNIQUE constraint failed: chunk_metadata.chunk_id".data)
  else
    Except.ok
      { db with
          chunks := db.chunks ++
            [{ chunk_id := chunk.chunk_id
               doc_id := doc_id
               content := chunk.content
               contextualized_text := chunk.contextualized_text
               chunk_type := chunk.chunk_type
               page_number := chunk.page_number
               category := chunk.category }]
          chunk_metadata := db.chunk_metadata ++
            [{ chunk_id := chunk.chunk_id
               headings_json := chunk.headings
               bbox_json := chunk.bbox
               element_label := chunk.element_label }] }

-- --- Spec-side helper definitions used by claim statements ---

/-- The formatted entries of a chunk list, numbered from 1 (spec side,
used to state the whole-chunk truncation property). -/
def entriesOf (chunks : List ChunkContext) : List Str :=
  (List.enumFrom 1 chunks).map (fun p => chunkEntry p.1 p.2)

/-- Total character count of a list of entries. -/
def sumLen (l : List Str) : Nat := (l.map List.length).sum

/-- Projection dropping the AUTOINCREMENT id of a `high_risk_terms` row. -/
def stripHrt (r : HrtRow) : Str × Str × Str := (r.term, r.category, r.severity)

-- --- Concrete inputs used by witnesses and counterexamples ---

/-- A well-formed vector row: category `content`, long content. -/
def sampleVRow : VRow :=
  { chunk_id := "c1".data
    distance := 3 / 10
    content := "Malaria danger signs in children under five years: convulsions, inability to drink, high fever.".data
    page_number := some 5
    category := "content".data
    headings_json := some ["Chapter 3".data, "Malaria".data] }

/-- A metadata vector row (filtered out by `search_vector`). -/
def sampleVRowMeta : VRow :=
  { chunk_id := "c5".data
    distance := 1 / 10
    content := "Table of Contents: Chapter 1 Introduction, Chapter 2 Emergencies, Chapter 3 Malaria.".data
    page_number := some 1
    category := "metadata".data
    headings_json := some ["Contents".data] }

/-- A well-formed keyword row: category `content`, negative raw BM25 score. -/
def sampleKRow : KRow :=
  { chunk_id := "c2".data
    content := "Treatment of uncomplicated malaria: Artemether-Lumefantrine is the first-line treatment.".data
    page_number := some 6
    category := "content".data
    headings_json := some ["Chapter 3".data, "Treatment".data]
    bm25_score := -(5 / 2) }

/-- An environment whose vector index always returns `sampleVRow` and whose
FTS join always returns `sampleKRow`; both indices available. -/
def envBoth : SearchEnv :=
  { hasEmbedder := true
    hasVec := true
    vecOracle := fun _ _ => [sampleVRow]
    ftsOk := true
    ftsJoined := fun _ => [sampleKRow]
    lexicon := HIGH_RISK_TERMS }

/-- An environment with no embedder, no sqlite-vec and an empty corpus. -/
def envEmpty : SearchEnv :=
  { hasEmbedder := false
    hasVec := false
    vecOracle := fun _ _ => []
    ftsOk := true
    ftsJoined := fun _ => []
    lexicon := [] }

/-- An environment with the vector lane unavailable but the keyword lane
populated. -/
def envKwOnly : SearchEnv :=
  { hasEmbedder := false
    hasVec := true
    vecOracle := fun _ _ => []
    ftsOk := true
    ftsJoined := fun _ => [sampleKRow]
    lexicon := HIGH_RISK_TERMS }

/-- A chunk used by the `insert_chunk` evaluation. -/
def sampleChunkData : ChunkData :=
  { chunk_id := "chunk-1".data
    content := "Give ORS solution after each loose stool.".data
    contextualized_text := "Dehydration > Give ORS solution after each loose stool.".data
    chunk_type := "text".data
    page_number := some 12
    headings := ["Dehydration".data]
    bbox := none
    element_label := "paragraph".data
    category := "content".data }

/-- The empty store (fresh database file): no rows, AUTOINCREMENT sequence
at its initial value 1. -/
def emptyDB : GuidelineDB :=
  { documents := []
    chunks := []
    chunk_metadata := []
    fts := []
    high_risk_terms := []
    hrtNextId := 1 }

/-- Greedy whole-chunk prefix of a list of formatted entries under a running
character total (spec side of `format_chunks_for_prompt`'s truncation). -/
def keptFrom (max_chars : Nat) : List Str → Nat → List Str
  | [], _ => []
  | e :: es, tot =>
    if max_chars < tot + e.length then []
    else e :: keptFrom max_chars es (tot + e.length)

/-- A search result list used by the alerter witness: one chunk mentioning
convulsions and a severe headache. -/
def sampleAlertResults : List SearchResult :=
  [{ chunk_id := "c1".data
     content := "Headache with convulsions requires refer immediately.".data
     headings := []
     page_number := some 1
     score := 1
     source := "keyword".data }]

-- ======================================================================
-- Theorems
-- ======================================================================

-- `containsSub` agrees with the mathematical substring predicate.
theorem containsSub_iff (hay needle : Str) :
    containsSub hay needle = true ↔ OccursIn needle hay := by
  unfold containsSub OccursIn
  rw [List.any_eq_true]
  constructor
  · rintro ⟨t, ht, hpre⟩
    rw [List.mem_tails] at ht
    rw [List.isPrefixOf_iff_prefix] at hpre
    obtain ⟨q, rfl⟩ := hpre
    obtain ⟨p, rfl⟩ := ht
    exact ⟨p, q, by rw [List.append_assoc]⟩
  · rintro ⟨p, q, rfl⟩
    refine ⟨needle ++ q, ?_, ?_⟩
    · rw [List.mem_tails]
      exact ⟨p, by rw [List.append_assoc]⟩
    · rw [List.isPrefixOf_iff_prefix]
      exact ⟨q, rfl⟩

/-- C3: `validate_guardrail` returns `passed = true` iff `"OVERALL: PASS"`
occurs as a substring of the upper-cased backend response, and returns the
full response text alongside the verdict; in particular `"Overall: Pass"` and
`"OVERALL: PASS_WITH_WARNINGS"` yield `passed = true`, while the empty
response, a response with no OVERALL line, and `"OVERALL:  PASS"` (two
spaces) yield `passed = false`. -/
theorem validate_guardrail_spec :
    (∀ (backend : Str → Str) (query summary : Str) (chunks : List SearchResult),
      ((validate_guardrail backend query summary chunks).1 = true ↔
        OccursIn ("OVERALL: PASS".data)
          (strUpper (backend (guardrail_prompt query summary (chunks.map toChunkContext) 3000))))
      ∧ (validate_guardrail backend query summary chunks).2 =
          backend (guardrail_prompt query summary (chunks.map toChunkContext) 3000))
    ∧ (validate_guardrail (fun _ => "Overall: Pass".data) [] [] []).1 = true
    ∧ (validate_guardrail (fun _ => "OVERALL: PASS_WITH_WARNINGS".data) [] [] []).1 = true
    ∧ (validate_guardrail (fun _ => []) [] [] []).1 = false
    ∧ (validate_guardrail (fun _ => "The summary is mostly correct but has some issues.".data) [] [] []).1 = false
    ∧ (validate_guardrail (fun _ => "OVERALL:  PASS".data) [] [] []).1 = false := by
  refine ⟨fun backend query summary chunks => ⟨?_, rfl⟩, by decide, by decide, by decide, by decide, by decide⟩
  exact containsSub_iff _ _

/-- Witness for C3's theorem: the general clause instantiated at a concrete
backend whose response is `"OVERALL: FAIL"`. -/
theorem validate_guardrail_spec_witness :
    ((validate_guardrail (fun _ => "OVERALL: FAIL".data) [] [] []).1 = true ↔
      OccursIn ("OVERALL: PASS".data) (strUpper ("OVERALL: FAIL".data)))
    ∧ (validate_guardrail (fun _ => "OVERALL: FAIL".data) [] [] []).2 = "OVERALL: FAIL".data :=
  validate_guardrail_spec.1 (fun _ => "OVERALL: FAIL".data) [] [] []

-- The formatting loop equals the greedy prefix of the pre-formatted entries.
theorem fmtLoop_eq_keptFrom (max_chars : Nat) :
    ∀ (l : List (Nat × ChunkContext)) (acc : List Str) (tot : Nat),
      fmtLoop max_chars l acc tot =
        acc.reverse ++ keptFrom max_chars (l.map (fun p => chunkEntry p.1 p.2)) tot := by
  intro l
  induction l with
  | nil => intro acc tot; simp [fmtLoop, keptFrom]
  | cons p rest ih =>
    intro acc tot
    obtain ⟨i, c⟩ := p
    simp only [fmtLoop, List.map_cons, keptFrom]
    by_cases h : max_chars < tot + (chunkEntry i c).length
    · simp [h]
    · simp only [h, if_false, if_neg h]
      rw [ih]
      simp

-- The greedy prefix is a `take`, stays within budget, and stops exactly
-- before the first entry that would exceed it.
theorem keptFrom_take (max_chars : Nat) :
    ∀ (es : List Str) (tot : Nat), tot ≤ max_chars →
      ∃ n, n ≤ es.length ∧ keptFrom max_chars es tot = es.take n ∧
        tot + sumLen (es.take n) ≤ max_chars ∧
        ∀ h : n < es.length,
          max_chars < tot + sumLen (es.take n) + (es.get ⟨n, h⟩).length := by
  intro es
  induction es with
  | nil =>
    intro tot htot
    exact ⟨0, by simp, by simp [keptFrom], by simpa [sumLen], by simp⟩
  | cons e rest ih =>
    intro tot htot
    by_cases h : max_chars < tot + e.length
    · refine ⟨0, by simp, by simp [keptFrom, h], by simpa [sumLen], ?_⟩
      intro _
      simpa [sumLen] using h
    · push_neg at h
      obtain ⟨n, hn, hkept, hsum, hnext⟩ := ih (tot + e.length) h
      refine ⟨n + 1, by simpa using hn, ?_, ?_, ?_⟩
      · simp [keptFrom, not_lt.mpr h, hkept]
      · simpa [sumLen, add_assoc] using hsum
      · intro hlt
        have hlt' : n < rest.length := by simpa using hlt
        have := hnext hlt'
        simpa [sumLen, add_assoc] using this

/-- C7: for every chunk list and character budget, the chunk context built by
`format_chunks_for_prompt` enumerates chunks in retrieval order as
`[i] <heading-path> (p.<page>)` followed by the chunk content, entries
separated by blank lines, and truncates on whole-chunk boundaries: it is the
join of a prefix of the formatted entries, the total length of the included
entries never exceeds the budget, and the first excluded entry (when one
exists) would have pushed the accumulated entry length over the budget. -/
theorem format_chunks_for_prompt_spec (chunks : List ChunkContext) (max_chars : Nat) :
    (∀ p ∈ List.enumFrom 1 chunks,
       chunkEntry p.1 p.2 =
         ('[' :: natStr p.1) ++ "] ".data ++ headingPath p.2.headings
           ++ pageInfo p.2.page_number ++ ('\n' :: p.2.content))
    ∧ ∃ n, n ≤ (entriesOf chunks).length ∧
        format_chunks_for_prompt chunks max_chars =
          List.intercalate "\n\n".data ((entriesOf chunks).take n) ∧
        sumLen ((entriesOf chunks).take n) ≤ max_chars ∧
        ∀ h : n < (entriesOf chunks).length,
          max_chars < sumLen ((entriesOf chunks).take n)
            + ((entriesOf chunks).get ⟨n, h⟩).length := by
  constructor
  · intro p _
    simp [chunkEntry]
  · have hbase : (0 : Nat) ≤ max_chars := Nat.zero_le _
    obtain ⟨n, hn, hkept, hsum, hnext⟩ := keptFrom_take max_chars (entriesOf chunks) 0 hbase
    refine ⟨n, hn, ?_, by simpa using hsum, by simpa using hnext⟩
    unfold format_chunks_for_prompt
    rw [fmtLoop_eq_keptFrom]
    simp only [List.reverse_nil, List.nil_append]
    rw [show (List.enumFrom 1 chunks).map (fun p => chunkEntry p.1 p.2) = entriesOf chunks from rfl]
    rw [hkept]

/-- Witness for C7's theorem: applied at a concrete two-chunk list and a
budget that admits only the first entry. -/
theorem format_chunks_for_prompt_spec_witness :
    (∀ p ∈ List.enumFrom 1
        [({ content := "Give ORS after each loose stool and continue feeding the child.".data,
            headings := ["Dehydration".data], page_number := some 12, score := 1 } : ChunkContext),
         ({ content := "Refer immediately when danger signs are present.".data,
            headings := [], page_number := none, score := 1 } : ChunkContext)],
       chunkEntry p.1 p.2 =
         ('[' :: natStr p.1) ++ "] ".data ++ headingPath p.2.headings
           ++ pageInfo p.2.page_number ++ ('\n' :: p.2.content))
    ∧ ∃ n, n ≤ (entriesOf
        [({ content := "Give ORS after each loose stool and continue feeding the child.".data,
            headings := ["Dehydration".data], page_number := some 12, score := 1 } : ChunkContext),
         ({ content := "Refer immediately when danger signs are present.".data,
            headings := [], page_number := none, score := 1 } : ChunkContext)]).length ∧
        format_chunks_for_prompt
          [({ content := "Give ORS after each loose stool and continue feeding the child.".data,
              headings := ["Dehydration".data], page_number := some 12, score := 1 } : ChunkContext),
           ({ content := "Refer immediately when danger signs are present.".data,
              headings := [], page_number := none, score := 1 } : ChunkContext)] 100 =
          List.intercalate "\n\n".data ((entriesOf
            [({ content := "Give ORS after each loose stool and continue feeding the child.".data,
                headings := ["Dehydration".data], page_number := some 12, score := 1 } : ChunkContext),
             ({ content := "Refer immediately when danger signs are present.".data,
                headings := [], page_number := none, score := 1 } : ChunkContext)]).take n) ∧
        sumLen ((entriesOf
          [({ content := "Give ORS after each loose stool and continue feeding the child.".data,
              headings := ["Dehydration".data], page_number := some 12, score := 1 } : ChunkContext),
           ({ content := "Refer immediately when danger signs are present.".data,
              headings := [], page_number := none, score := 1 } : ChunkContext)]).take n) ≤ 100 ∧
        ∀ h : n < (entriesOf
          [({ content := "Give ORS after each loose stool and continue feeding the child.".data,
              headings := ["Dehydration".data], page_number := some 12, score := 1 } : ChunkContext),
           ({ content := "Refer immediately when danger signs are present.".data,
              headings := [], page_number := none, score := 1 } : ChunkContext)]).length,
          100 < sumLen ((entriesOf
            [({ content := "Give ORS after each loose stool and continue feeding the child.".data,
                headings := ["Dehydration".data], page_number := some 12, score := 1 } : ChunkContext),
             ({ content := "Refer immediately when danger signs are present.".data,
                headings := [], page_number := none, score := 1 } : ChunkContext)]).take n)
            + ((entriesOf
              [({ content := "Give ORS after each loose stool and continue feeding the child.".data,
                  headings := ["Dehydration".data], page_number := some 12, score := 1 } : ChunkContext),
               ({ content := "Refer immediately when danger signs are present.".data,
                  headings := [], page_number := none, score := 1 } : ChunkContext)]).get ⟨n, h⟩).length :=
  format_chunks_for_prompt_spec _ 100

-- Every alert emitted by the scan loop had its lowercased term found in the
-- joined content.
theorem detectLoop_occurs (c : Str) :
    ∀ (lex : List (Str × Str × Str)) (seen : List Str) (a : HighRiskAlertContext),
      a ∈ detectLoop c lex seen → containsSub c (strLower a.term) = true := by
  intro lex
  induction lex with
  | nil => intro seen a ha; simp [detectLoop] at ha
  | cons hd rest ih =>
    intro seen a ha
    obtain ⟨term, cat, sev⟩ := hd
    simp only [detectLoop] at ha
    by_cases hc : (containsSub c (strLower term) && !(seen.contains term)) = true
    · rw [if_pos hc] at ha
      rcases List.mem_cons.mp ha with rfl | ha'
      · simpa using ((Bool.and_eq_true _ _).mp hc).1
      · exact ih _ a ha'
    · rw [if_neg hc] at ha
      exact ih _ a ha

-- A lexicon entry whose lowercased term occurs in the content, and whose term
-- is not yet seen, yields an alert carrying that term.
theorem detectLoop_exists (c : Str) :
    ∀ (lex : List (Str × Str × Str)) (seen : List Str) (t : Str × Str × Str),
      t ∈ lex → containsSub c (strLower t.1) = true → t.1 ∉ seen →
      ∃ a ∈ detectLoop c lex seen, a.term = t.1 := by
  intro lex
  induction lex with
  | nil => intro seen t ht _ _; simp at ht
  | cons hd rest ih =>
    intro seen t ht hocc hseen
    obtain ⟨term, cat, sev⟩ := hd
    simp only [detectLoop]
    by_cases hc : (containsSub c (strLower term) && !(seen.contains term)) = true
    · rw [if_pos hc]
      by_cases heq : term = t.1
      · exact ⟨⟨term, cat, sev⟩, List.mem_cons_self _ _, heq⟩
      · have ht' : t ∈ rest := by
          rcases List.mem_cons.mp ht with h | h
          · exact absurd (by rw [h]) heq
          · exact h
        have hseen' : t.1 ∉ term :: seen := by
          intro hmem
          rcases List.mem_cons.mp hmem with h | h
          · exact heq h.symm
          · exact hseen h
        obtain ⟨a, ha, hat⟩ := ih (term :: seen) t ht' hocc hseen'
        exact ⟨a, List.mem_cons_of_mem _ ha, hat⟩
    · rw [if_neg hc]
      have ht' : t ∈ rest := by
        rcases List.mem_cons.mp ht with h | h
        · exfalso
          apply hc
          rw [Bool.and_eq_true]
          refine ⟨?_, ?_⟩
          · have h1 : term = t.1 := by rw [h]
            rw [h1]; exact hocc
          · rw [Bool.not_eq_true']
            cases hcon : seen.contains term with
            | false => rfl
            | true =>
              exfalso
              apply hseen
              have h1 : term = t.1 := by rw [h]
              exact h1 ▸ List.elem_iff.mp hcon
        · exact h
      exact ih seen t ht' hocc hseen

-- The scan loop never emits the same term twice, and never emits a term
-- already seen.
theorem detectLoop_nodup (c : Str) :
    ∀ (lex : List (Str × Str × Str)) (seen : List Str),
      ((detectLoop c lex seen).map (fun a => a.term)).Nodup ∧
      ∀ a ∈ detectLoop c lex seen, a.term ∉ seen := by
  intro lex
  induction lex with
  | nil => intro seen; constructor <;> simp [detectLoop]
  | cons hd rest ih =>
    intro seen
    obtain ⟨term, cat, sev⟩ := hd
    simp only [detectLoop]
    by_cases hc : (containsSub c (strLower term) && !(seen.contains term)) = true
    · rw [if_pos hc]
      obtain ⟨hnd, hnot⟩ := ih (term :: seen)
      have hterm_not : term ∉ seen := by
        have h2 := ((Bool.and_eq_true _ _).mp hc).2
        rw [Bool.not_eq_true'] at h2
        intro hmem
        have h3 : seen.contains term = true := List.elem_iff.mpr hmem
        rw [h3] at h2
        cases h2
      constructor
      · rw [List.map_cons]
        refine List.Nodup.cons ?_ hnd
        intro hmem
        obtain ⟨a, ha, hat⟩ := List.mem_map.mp hmem
        exact (hnot a ha) (hat ▸ List.mem_cons_self _ _)
      · intro a ha
        rcases List.mem_cons.mp ha with rfl | ha'
        · exact hterm_not
        · intro hmem
          exact (hnot a ha') (List.mem_cons_of_mem _ hmem)
    · rw [if_neg hc]
      exact ih seen

-- A list with no duplicate terms keeps at most one element per term under the
-- term filter.
theorem filter_term_le_one :
    ∀ (l : List HighRiskAlertContext), ((l.map (fun a => a.term)).Nodup) →
      ∀ s : Str, (l.filter (fun a => a.term == s)).length ≤ 1 := by
  intro l
  induction l with
  | nil => intro _ s; simp
  | cons a t ih =>
    intro hnd s
    rw [List.map_cons, List.nodup_cons] at hnd
    by_cases h : (a.term == s) = true
    · have hs : a.term = s := by simpa using h
      have hnil : t.filter (fun b => b.term == s) = [] := by
        apply List.filter_eq_nil_iff.mpr
        intro b hb
        simp only [beq_iff_eq]
        intro hbs
        exact hnd.1 (List.mem_map.mpr ⟨b, hb, by rw [hbs, hs]⟩)
      simp [List.filter_cons, h, hnil]
    · simp only [List.filter_cons, h, if_neg, Bool.false_eq_true, not_false_eq_true]
      exact ih hnd.2 s

/-- C2: `detect(results)` concatenates the lower-cased content of all results
(joined with spaces) into one string and emits an alert for a lexicon term iff
the lowercased term occurs as a substring of that string; each distinct term
yields at most one alert, and the returned list is sorted with High-severity
alerts before Medium-severity ones and, within a severity, ordered by term. -/
theorem detect_high_risk_spec (lexicon : List (Str × Str × Str)) (results : List SearchResult) :
    (∀ t ∈ lexicon,
        (∃ a ∈ detect_high_risk lexicon results, a.term = t.1) ↔
          OccursIn (strLower t.1)
            (List.intercalate " ".data (results.map (fun r => strLower r.content))))
    ∧ (∀ s : Str, ((detect_high_risk lexicon results).filter (fun a => a.term == s)).length ≤ 1)
    ∧ (detect_high_risk lexicon results).Pairwise alertLe := by
  have hperm : (detect_high_risk lexicon results).Perm
      (detectLoop (List.intercalate " ".data (results.map (fun r => strLower r.content))) lexicon []) :=
    List.perm_insertionSort alertLe _
  refine ⟨?_, ?_, ?_⟩
  · intro t ht
    constructor
    · rintro ⟨a, ha, hat⟩
      rw [← hat]
      exact (containsSub_iff _ _).mp
        (detectLoop_occurs _ lexicon [] a (hperm.mem_iff.mp ha))
    · intro hocc
      obtain ⟨a, ha, hat⟩ := detectLoop_exists _ lexicon [] t ht
        ((containsSub_iff _ _).mpr hocc) (by simp)
      exact ⟨a, hperm.mem_iff.mpr ha, hat⟩
  · intro s
    have hnd := (detectLoop_nodup
      (List.intercalate " ".data (results.map (fun r => strLower r.content))) lexicon []).1
    have hnd' : ((detect_high_risk lexicon results).map (fun a => a.term)).Nodup :=
      ((hperm.map (fun a => a.term)).symm.nodup hnd)
    exact filter_term_le_one _ hnd' s
  · exact List.sorted_insertionSort alertLe _

/-- Witness for C2's theorem: applied to the full curated lexicon and a
concrete result mentioning convulsions, a headache and an immediate
referral. -/
theorem detect_high_risk_spec_witness :
    (∀ t ∈ HIGH_RISK_TERMS,
        (∃ a ∈ detect_high_risk HIGH_RISK_TERMS sampleAlertResults, a.term = t.1) ↔
          OccursIn (strLower t.1)
            (List.intercalate " ".data (sampleAlertResults.map (fun r => strLower r.content))))
    ∧ (∀ s : Str,
        ((detect_high_risk HIGH_RISK_TERMS sampleAlertResults).filter
          (fun a => a.term == s)).length ≤ 1)
    ∧ (detect_high_risk HIGH_RISK_TERMS sampleAlertResults).Pairwise alertLe :=
  detect_high_risk_spec HIGH_RISK_TERMS sampleAlertResults

-- The vector accumulation loop is "filter then take", as long as the target
-- count exceeds the accumulator (the code checks `len(results) >= k` only
-- after appending).
theorem vecLoop_eq_take :
    ∀ (rows : List VRow) (k : Nat) (acc : List SearchResult), acc.length < k →
      vecLoop k rows acc =
        acc.reverse ++ ((rows.filter vecKeep).map mkVecResult).take (k - acc.length) := by
  intro rows
  induction rows with
  | nil => intro k acc _; simp [vecLoop]
  | cons r rs ih =>
    intro k acc hlt
    simp only [vecLoop]
    by_cases h1 : (r.category == "metadata".data) = true
    · rw [if_pos h1]
      have hk : vecKeep r = false := by simp [vecKeep, h1]
      rw [List.filter_cons, hk]
      simpa using ih k acc hlt
    · rw [if_neg h1]
      by_cases h2 : (strTrim r.content).length < 50
      · rw [if_pos h2]
        have hk : vecKeep r = false := by simp [vecKeep, h1, h2]
        rw [List.filter_cons, hk]
        simpa using ih k acc hlt
      · rw [if_neg h2]
        have hk : vecKeep r = true := by simp [vecKeep, h1, h2]
        rw [List.filter_cons, hk]
        simp only [if_pos, List.map_cons]
        by_cases h3 : acc.length + 1 ≥ k
        · rw [if_pos h3]
          have hkeq : k - acc.length = 1 := by omega
          rw [hkeq]
          simp
        · rw [if_neg h3]
          rw [ih k (mkVecResult r :: acc) (by simp; omega)]
          have hkeq : k - acc.length = (k - (mkVecResult r :: acc).length) + 1 := by
            simp; omega
          rw [hkeq, List.take_succ_cons]
          simp

/-- C5: `search_vector(q, k)` filters the `3k` candidates, dropping `metadata`
chunks and chunks with trimmed content shorter than 50 characters, and returns
the first `k` survivors, each with `score = 1 - distance` and
`source = "vector"`; every `search_keyword(q, k)` result comes from a row with
`category = "content"` and carries `score = |bm25_raw|` and
`source = "keyword"`.  (The hypothesis says the vector index returns at most
the `k * 3` rows requested.) -/
theorem search_lane_invariants (env : SearchEnv) (q : Str) (k : Nat)
    (hlen : (env.vecOracle q (k * 3)).length ≤ k * 3) :
    (env.hasEmbedder = true → env.hasVec = true →
       search_vector env q k =
         (((env.vecOracle q (k * 3)).filter vecKeep).map mkVecResult).take k)
    ∧ (∀ r ∈ search_vector env q k, r.source = "vector".data ∧
         ∃ row ∈ env.vecOracle q (k * 3),
           row.category ≠ "metadata".data ∧ 50 ≤ (strTrim row.content).length ∧
           r = mkVecResult row ∧ r.score = 1 - row.distance)
    ∧ (∀ r ∈ search_keyword env q k, r.source = "keyword".data ∧
         ∃ row ∈ env.ftsJoined (ftsQueryString q),
           row.category = "content".data ∧ r = mkKeywordResult row ∧
           r.score = |row.bm25_score|) := by
  have hvec : env.hasEmbedder = true → env.hasVec = true →
      search_vector env q k =
        (((env.vecOracle q (k * 3)).filter vecKeep).map mkVecResult).take k := by
    intro hE hV
    unfold search_vector search_vectorT
    rw [hE, hV]
    simp only [Bool.not_true, Bool.or_self, Bool.false_eq_true, if_neg, if_false]
    rcases Nat.eq_zero_or_pos k with rfl | hk
    · have : env.vecOracle q (0 * 3) = [] := by
        have h0 : (env.vecOracle q (0 * 3)).length = 0 := Nat.le_zero.mp (by simpa using hlen)
        exact List.eq_nil_of_length_eq_zero h0
      rw [this]
      simp [vecLoop]
    · rw [vecLoop_eq_take _ k [] (by simpa using hk)]
      simp
  refine ⟨hvec, ?_, ?_⟩
  · intro r hr
    by_cases hE : env.hasEmbedder = true
    · by_cases hV : env.hasVec = true
      · rw [hvec hE hV] at hr
        have hr' : r ∈ ((env.vecOracle q (k * 3)).filter vecKeep).map mkVecResult :=
          List.take_subset _ _ hr
        obtain ⟨row, hrow, rfl⟩ := List.mem_map.mp hr'
        obtain ⟨hrows, hkeep⟩ := List.mem_filter.mp hrow
        have hkeep' := (Bool.and_eq_true _ _).mp hkeep
        refine ⟨rfl, row, hrows, ?_, ?_, rfl, rfl⟩
        · intro hcat
          rw [Bool.not_eq_true'] at hkeep'
          have := hkeep'.1
          rw [beq_eq_false_iff_ne] at this
          exact this hcat
        · have h2 := hkeep'.2
          rw [Bool.not_eq_true'] at h2
          simp only [decide_eq_false_iff_not, not_lt] at h2
          exact h2
      · exfalso
        have : search_vector env q k = [] := by
          unfold search_vector search_vectorT
          rw [Bool.not_eq_true] at hV
          rw [hV]
          simp
        rw [this] at hr
        cases hr
    · exfalso
      have : search_vector env q k = [] := by
        unfold search_vector search_vectorT
        rw [Bool.not_eq_true] at hE
        rw [hE]
        simp
      rw [this] at hr
      cases hr
  · intro r hr
    unfold search_keyword search_keywordT at hr
    by_cases ht : (queryTerms q).isEmpty = true
    · rw [if_pos ht] at hr; cases hr
    · rw [if_neg ht] at hr
      by_cases hf : env.ftsOk = true
      · rw [hf] at hr
        simp only [Bool.not_true, Bool.false_eq_true, if_neg, if_false] at hr
        obtain ⟨row, hrow, rfl⟩ := List.mem_map.mp hr
        unfold keywordRows at hrow
        have hrow' := List.take_subset _ _ hrow
        obtain ⟨hmem, hcat⟩ := List.mem_filter.mp hrow'
        exact ⟨rfl, row, hmem, by simpa using hcat, rfl, rfl⟩
      · rw [Bool.not_eq_true] at hf
        rw [hf] at hr
        simp at hr

/-- Witness for C5's theorem: applied at a populated two-lane environment,
query `"malaria"`, `k = 2`, discharging the row-count hypothesis. -/
theorem search_lane_invariants_witness :
    ((envBoth.vecOracle ("malaria".data) (2 * 3)).length ≤ 2 * 3)
    ∧ ((envBoth.hasEmbedder = true → envBoth.hasVec = true →
       search_vector envBoth ("malaria".data) 2 =
         (((envBoth.vecOracle ("malaria".data) (2 * 3)).filter vecKeep).map mkVecResult).take 2)
    ∧ (∀ r ∈ search_vector envBoth ("malaria".data) 2, r.source = "vector".data ∧
         ∃ row ∈ envBoth.vecOracle ("malaria".data) (2 * 3),
           row.category ≠ "metadata".data ∧ 50 ≤ (strTrim row.content).length ∧
           r = mkVecResult row ∧ r.score = 1 - row.distance)
    ∧ (∀ r ∈ search_keyword envBoth ("malaria".data) 2, r.source = "keyword".data ∧
         ∃ row ∈ envBoth.ftsJoined (ftsQueryString ("malaria".data)),
           row.category = "content".data ∧ r = mkKeywordResult row ∧
           r.score = |row.bm25_score|)) :=
  ⟨by decide, search_lane_invariants envBoth ("malaria".data) 2 (by decide)⟩

/-- C4 counterexample: against a store whose vector lane returns a valid
candidate, `search_hybrid` on the all-whitespace query `" "` is NOT empty
(the vector sub-search still runs on the embedding of the stripped-out
query), and with `top_k = 0` the result is empty but both sub-searches ARE
issued (the vector index and the FTS index are both contacted). -/
theorem search_edge_cases_cex :
    search_hybrid envBoth (" ".data) 10 ≠ []
    ∧ (search_hybridT envBoth ("malaria".data) 0).1 = []
    ∧ (search_hybridT envBoth ("malaria".data) 0).2.1 = true
    ∧ (search_hybridT envBoth ("malaria".data) 0).2.2 = true := by
  refine ⟨?_, rfl, rfl, rfl⟩
  intro h
  have h1 : (search_hybrid envBoth (" ".data) 10).length = 1 := rfl
  rw [h] at h1
  cases h1

/-- C6 counterexample: with an empty corpus (hybrid retrieval returns no
chunks) and a backend that answers `"MODEL OUTPUT"`, `Pipeline.query` does
NOT skip synthesis and does NOT return an empty summary: the backend is
invoked and its output becomes the summary. -/
theorem pipeline_query_empty_search_cex :
    (pipelineQuery envEmpty (fun _ => "MODEL OUTPUT".data) ("malaria".data) 10 false).chunks_used = []
    ∧ (pipelineQuery envEmpty (fun _ => "MODEL OUTPUT".data) ("malaria".data) 10 false).summary
        = "MODEL OUTPUT".data
    ∧ (pipelineQuery envEmpty (fun _ => "MODEL OUTPUT".data) ("malaria".data) 10 false).summary
        ≠ [] := by
  refine ⟨rfl, rfl, ?_⟩
  intro h
  have h1 : (pipelineQuery envEmpty (fun _ => "MODEL OUTPUT".data)
      ("malaria".data) 10 false).summary.length = 12 := rfl
  rw [h] at h1
  cases h1

/-- C6 (amended): when hybrid retrieval returns no chunks, `Pipeline.query`
still invokes synthesis — on the empty chunk list — and the returned
`SynthesisResult` carries the backend's output on the empty-context synthesis
prompt as its summary, with an empty `chunks_used`; there is no
`SEARCH_EMPTY` short-circuit or explanatory note. -/
theorem pipeline_query_empty_search_amended (env : SearchEnv) (backend : Str → Str)
    (q : Str) (top_k : Nat) (rg : Bool)
    (h : search_hybrid env q top_k = []) :
    (pipelineQuery env backend q top_k rg).chunks_used = []
    ∧ (pipelineQuery env backend q top_k rg).summary =
        backend (synthesis_prompt q []
          (if (detect_high_risk env.lexicon []).isEmpty then none
           else some (detect_high_risk env.lexicon [])) 4000) := by
  unfold pipelineQuery synthesize
  rw [h]
  exact ⟨rfl, rfl⟩

/-- Witness for C6's amended theorem: applied at the empty corpus, with the
empty-retrieval hypothesis discharged by evaluation. -/
theorem pipeline_query_empty_search_amended_witness :
    search_hybrid envEmpty ("malaria".data) 10 = []
    ∧ ((pipelineQuery envEmpty (fun _ => "MODEL OUTPUT".data) ("malaria".data) 10 true).chunks_used = []
      ∧ (pipelineQuery envEmpty (fun _ => "MODEL OUTPUT".data) ("malaria".data) 10 true).summary =
          (fun _ => "MODEL OUTPUT".data) (synthesis_prompt ("malaria".data) []
            (if (detect_high_risk envEmpty.lexicon []).isEmpty then none
             else some (detect_high_risk envEmpty.lexicon [])) 4000)) :=
  ⟨by decide, pipeline_query_empty_search_amended envEmpty (fun _ => "MODEL OUTPUT".data)
    ("malaria".data) 10 true (by decide)⟩

/-- C8 counterexample: `populate_high_risk_terms` is NOT idempotent on the
store state — the second run deletes and re-inserts the rows, and the
`AUTOINCREMENT` sequence of `term_id` keeps increasing, so the stored rows
after two runs differ from the rows after one run. -/
theorem populate_high_risk_terms_cex :
    ((populate_high_risk_terms emptyDB).high_risk_terms.head?.map (fun r => r.term_id)) = some 1
    ∧ ((populate_high_risk_terms (populate_high_risk_terms emptyDB)).high_risk_terms.head?.map
        (fun r => r.term_id)) = some (1 + HIGH_RISK_TERMS.length)
    ∧ (populate_high_risk_terms (populate_high_risk_terms emptyDB)).high_risk_terms ≠
        (populate_high_risk_terms emptyDB).high_risk_terms := by
  refine ⟨rfl, rfl, ?_⟩
  intro h
  have h1 := congrArg (fun l => l.head?.map (fun r => r.term_id)) h
  simp only at h1
  rw [show ((populate_high_risk_terms emptyDB).high_risk_terms.head?.map
      (fun r => r.term_id)) = some 1 from rfl] at h1
  rw [show ((populate_high_risk_terms (populate_high_risk_terms emptyDB)).high_risk_terms.head?.map
      (fun r => r.term_id)) = some 47 from rfl] at h1
  cases h1

-- Dropping the AUTOINCREMENT ids, the assigned rows are the curated list,
-- whatever the sequence start.
theorem assignIds_map_stripHrt : ∀ (n : Nat) (l : List (Str × Str × Str)),
    (assignIds n l).map stripHrt = l := by
  intro n l
  induction l generalizing n with
  | nil => simp [assignIds]
  | cons t ts ih => simp [assignIds, stripHrt, ih]

/-- C8 (amended): `populate_fts()` is idempotent on the store state, and
`populate_high_risk_lexicon()` is idempotent up to `term_id`: the
`(term, category, severity)` columns of the stored rows are identical after
one run and after two, but the `AUTOINCREMENT` `term_id` values differ. -/
theorem populate_idempotence_amended (db : GuidelineDB) :
    populate_fts5 (populate_fts5 db) = populate_fts5 db
    ∧ (populate_high_risk_terms (populate_high_risk_terms db)).high_risk_terms.map stripHrt =
        (populate_high_risk_terms db).high_risk_terms.map stripHrt
    ∧ (populate_high_risk_terms db).high_risk_terms.map stripHrt = HIGH_RISK_TERMS := by
  refine ⟨rfl, ?_, ?_⟩
  · simp [populate_high_risk_terms, assignIds_map_stripHrt]
  · simp [populate_high_risk_terms, assignIds_map_stripHrt]

/-- C9: evaluation at the failing input — on a store with NO documents,
`insert_chunk` succeeds and persists both the chunk row (with the dangling
`doc_id`) and its metadata row, because the connection never enables
`PRAGMA foreign_keys` and SQLite therefore does not enforce the declared
FOREIGN KEY. -/
theorem insert_chunk_ignores_missing_document :
    emptyDB.documents = []
    ∧ (insert_chunk emptyDB ("doc-missing".data) sampleChunkData).toOption.map
        (fun d => (d.chunks.length, d.chunk_metadata.length,
          d.chunks.map (fun c => c.doc_id))) =
      some (1, 1, ["doc-missing".data]) := by
  exact ⟨rfl, rfl⟩

-- --- RRF fusion: association-list lemmas ---

theorem hasKey_iff (m : List RRFEntry) (c : Str) :
    hasKey m c = true ↔ c ∈ m.map (fun e => e.1) := by
  unfold hasKey
  rw [List.any_eq_true]
  constructor
  · rintro ⟨e, he, heq⟩
    exact List.mem_map.mpr ⟨e, he, by simpa using heq⟩
  · intro hmem
    obtain ⟨e, he, heq⟩ := List.mem_map.mp hmem
    exact ⟨e, he, by simpa using heq⟩

theorem hasKey_eq_contains (m : List RRFEntry) (c : Str) :
    hasKey m c = (m.map (fun e => e.1)).contains c := by
  rw [Bool.eq_iff_iff, hasKey_iff, List.elem_iff]

theorem hasKey_eq_of_keys_eq (m₁ m₂ : List RRFEntry)
    (h : m₁.map (fun e => e.1) = m₂.map (fun e => e.1)) (c : Str) :
    hasKey m₁ c = hasKey m₂ c := by
  rw [hasKey_eq_contains, hasKey_eq_contains, h]

theorem hasKey_append_single (m : List RRFEntry) (e : RRFEntry) (c : Str) :
    hasKey (m ++ [e]) c = (hasKey m c || (e.1 == c)) := by
  unfold hasKey
  rw [List.any_append]
  simp

theorem contribP_nil (cid : Str) : contribP [] cid = 0 := rfl

theorem contribP_cons_self (p : Nat × SearchResult) (l : List (Nat × SearchResult))
    (cid : Str) (h : p.2.chunk_id = cid) :
    contribP (p :: l) cid = rrfScore p.1 + contribP l cid := by
  unfold contribP
  rw [List.filter_cons]
  have hb : (p.2.chunk_id == cid) = true := by simpa using h
  rw [hb]
  simp

theorem contribP_cons_ne (p : Nat × SearchResult) (l : List (Nat × SearchResult))
    (cid : Str) (h : p.2.chunk_id ≠ cid) :
    contribP (p :: l) cid = contribP l cid := by
  unfold contribP
  rw [List.filter_cons]
  have hb : (p.2.chunk_id == cid) = false := beq_eq_false_iff_ne.mpr h
  rw [hb]
  simp

theorem contribP_eq_zero (l : List (Nat × SearchResult)) (cid : Str)
    (h : ∀ q ∈ l, q.2.chunk_id ≠ cid) : contribP l cid = 0 := by
  unfold contribP
  have : l.filter (fun p => p.2.chunk_id == cid) = [] := by
    rw [List.filter_eq_nil_iff]
    intro q hq
    simpa using h q hq
  rw [this]
  rfl

-- The vector pass over fresh, duplicate-free keys appends the enumerated
-- entries in order.
theorem rrfPass1_closed :
    ∀ (l : List (Nat × SearchResult)) (m : List RRFEntry),
      (l.map (fun p => p.2.chunk_id)).Nodup →
      (∀ p ∈ l, hasKey m p.2.chunk_id = false) →
      l.foldl rrfStep1 m = m ++ l.map (fun p => (p.2.chunk_id, rrfScore p.1, p.2)) := by
  intro l
  induction l with
  | nil => intro m _ _; simp
  | cons p rest ih =>
    intro m hnd hfresh
    rw [List.foldl_cons]
    have hstep : rrfStep1 m p = m ++ [(p.2.chunk_id, rrfScore p.1, p.2)] := by
      unfold rrfStep1 rrfInsertVec
      rw [if_neg]
      rw [hfresh p (List.mem_cons_self _ _)]
      simp
    rw [List.map_cons, List.nodup_cons] at hnd
    rw [hstep, ih (m ++ [(p.2.chunk_id, rrfScore p.1, p.2)]) hnd.2 ?_]
    · simp
    · intro q hq
      rw [hasKey_append_single, hfresh q (List.mem_cons_of_mem _ hq)]
      simp only [Bool.false_or]
      rw [beq_eq_false_iff_ne]
      intro hqp
      exact hnd.1 (List.mem_map.mpr ⟨q, hq, hqp.symm⟩)

-- The keyword pass over duplicate-free keys: existing entries accumulate the
-- keyword contribution of their chunk id and keep their stored result; fresh
-- keys are appended in keyword order with their own contribution.
theorem rrfPass2_closed :
    ∀ (l : List (Nat × SearchResult)) (m : List RRFEntry),
      (l.map (fun p => p.2.chunk_id)).Nodup →
      l.foldl rrfStep2 m =
        m.map (fun e => (e.1, e.2.1 + contribP l e.1, e.2.2))
        ++ (l.filter (fun p => !(hasKey m p.2.chunk_id))).map
             (fun p => (p.2.chunk_id, rrfScore p.1, p.2)) := by
  intro l
  induction l with
  | nil =>
    intro m _
    simp only [List.foldl_nil, List.filter_nil, List.map_nil, List.append_nil]
    have h1 : ∀ e : RRFEntry, (e.1, e.2.1 + contribP [] e.1, e.2.2) = e := by
      intro e
      rw [contribP_nil, add_zero]
    rw [List.map_congr_left (fun e _ => h1 e)]
    simp
  | cons p rest ih =>
    intro m hnd
    rw [List.map_cons, List.nodup_cons] at hnd
    obtain ⟨hph, hnd'⟩ := hnd
    have hph' : ∀ q ∈ rest, q.2.chunk_id ≠ p.2.chunk_id := by
      intro q hq heq
      exact hph (List.mem_map.mpr ⟨q, hq, heq⟩)
    rw [List.foldl_cons]
    by_cases hk : hasKey m p.2.chunk_id = true
    · have hstep : rrfStep2 m p =
          m.map (fun e => if e.1 == p.2.chunk_id then (e.1, e.2.1 + rrfScore p.1, e.2.2) else e) := by
        unfold rrfStep2 rrfInsertKw
        rw [if_pos hk]
      have hkeys : (m.map (fun e =>
          if e.1 == p.2.chunk_id then (e.1, e.2.1 + rrfScore p.1, e.2.2) else e)).map
            (fun e => e.1) = m.map (fun e => e.1) := by
        rw [List.map_map]
        apply List.map_congr_left
        intro e _
        by_cases hec : (e.1 == p.2.chunk_id) = true
        · simp [Function.comp, hec]
        · simp [Function.comp, hec]
      rw [hstep, ih _ hnd']
      congr 1
      · rw [List.map_map]
        apply List.map_congr_left
        intro e _
        by_cases hec : (e.1 == p.2.chunk_id) = true
        · have hcid : e.1 = p.2.chunk_id := by simpa using hec
          simp only [Function.comp, hec, if_true]
          rw [contribP_cons_self p rest e.1 hcid.symm, add_assoc]
        · have hcid : p.2.chunk_id ≠ e.1 := by
            intro h
            exact hec (by simp [h])
          have hif : (if (e.1 == p.2.chunk_id) = true
              then (e.1, e.2.1 + rrfScore p.1, e.2.2) else e) = e := if_neg hec
          simp only [Function.comp, hif]
          rw [contribP_cons_ne p rest e.1 hcid]
      · rw [List.filter_cons]
        have hp : (!(hasKey m p.2.chunk_id)) = false := by rw [hk]; rfl
        rw [hp]
        simp only [Bool.false_eq_true, if_false]
        congr 1
        apply List.filter_congr
        intro q _
        rw [hasKey_eq_of_keys_eq _ _ hkeys]
    · have hkf : hasKey m p.2.chunk_id = false := Bool.eq_false_iff.mpr hk
      have hstep : rrfStep2 m p = m ++ [(p.2.chunk_id, rrfScore p.1, p.2)] := by
        unfold rrfStep2 rrfInsertKw
        rw [if_neg hk]
      rw [hstep, ih _ hnd']
      rw [List.map_append, List.filter_cons]
      have hp : (!(hasKey m p.2.chunk_id)) = true := by rw [hkf]; rfl
      rw [hp]
      simp only [if_true]
      rw [List.map_cons, List.append_assoc]
      congr 1
      · apply List.map_congr_left
        intro e he
        have hecid : p.2.chunk_id ≠ e.1 := by
          intro h
          exact hk ((hasKey_iff _ _).mpr (List.mem_map.mpr ⟨e, he, h.symm⟩))
        rw [contribP_cons_ne p rest e.1 hecid]
      · simp only [List.map_cons, List.map_nil, List.singleton_append]
        congr 1
        · show (p.2.chunk_id, rrfScore p.1 + contribP rest p.2.chunk_id, p.2)
            = (p.2.chunk_id, rrfScore p.1, p.2)
          rw [contribP_eq_zero rest p.2.chunk_id hph', add_zero]
        · congr 1
          apply List.filter_congr
          intro q hq
          rw [hasKey_append_single]
          have hne : (((p.2.chunk_id, rrfScore p.1, p.2) : RRFEntry).1 == q.2.chunk_id) = false :=
            beq_eq_false_iff_ne.mpr (fun h => (hph' q hq) h.symm)
          rw [hne, Bool.or_false]

-- A chunk id absent from a list contributes nothing at any enumeration start.
theorem enumFrom_filter_nil (c : Str) :
    ∀ (l : List SearchResult) (n : Nat), (∀ r ∈ l, r.chunk_id ≠ c) →
      (List.enumFrom n l).filter (fun p => p.2.chunk_id == c) = [] := by
  intro l
  induction l with
  | nil => intro n _; rfl
  | cons x xs ih =>
    intro n h
    rw [List.enumFrom_cons, List.filter_cons]
    have hx : (((n, x) : Nat × SearchResult).2.chunk_id == c) = false :=
      beq_eq_false_iff_ne.mpr (h x (List.mem_cons_self _ _))
    rw [hx]
    simp only [Bool.false_eq_true, if_false]
    exact ih (n + 1) (fun r hr => h r (List.mem_cons_of_mem _ hr))

-- Under duplicate-free chunk ids, the only enumerated entry with a given
-- result's chunk id is that result's own entry.
theorem enumFrom_filter_single :
    ∀ (l : List SearchResult) (n : Nat), ((l.map (fun r => r.chunk_id)).Nodup) →
      ∀ (i : Nat) (r : SearchResult), (i, r) ∈ List.enumFrom n l →
      (List.enumFrom n l).filter (fun p => p.2.chunk_id == r.chunk_id) = [(i, r)] := by
  intro l
  induction l with
  | nil => intro n _ i r hmem; simp at hmem
  | cons x xs ih =>
    intro n hnd i r hmem
    rw [List.map_cons, List.nodup_cons] at hnd
    rw [List.enumFrom_cons] at hmem
    rw [List.enumFrom_cons, List.filter_cons]
    rcases List.mem_cons.mp hmem with heq | hmem'
    · have hi : i = n := congrArg Prod.fst heq
      have hr : r = x := congrArg Prod.snd heq
      rw [hi, hr]
      rw [if_pos (beq_self_eq_true x.chunk_id)]
      have hnil : (List.enumFrom (n + 1) xs).filter
          (fun p => p.2.chunk_id == x.chunk_id) = [] := by
        apply enumFrom_filter_nil
        intro q hq hqeq
        exact hnd.1 (List.mem_map.mpr ⟨q, hq, hqeq⟩)
      rw [hnil]
    · have hrxs : r ∈ xs := by
        obtain ⟨_, _, h3⟩ := List.mem_enumFrom hmem'
        exact h3 ▸ List.getElem_mem _
      have hx : (((n, x) : Nat × SearchResult).2.chunk_id == r.chunk_id) = false := by
        rw [beq_eq_false_iff_ne]
        intro h
        exact hnd.1 (List.mem_map.mpr ⟨r, hrxs, h.symm⟩)
      rw [hx]
      simp only [Bool.false_eq_true, if_false]
      exact ih (n + 1) hnd.2 i r hmem'

-- `firstObserved` only looks at the membership of the seen set.
theorem firstObserved_congr_seen :
    ∀ (l : List SearchResult) (s₁ s₂ : List Str), (∀ c, c ∈ s₁ ↔ c ∈ s₂) →
      firstObserved l s₁ = firstObserved l s₂ := by
  intro l
  induction l with
  | nil => intro s₁ s₂ _; rfl
  | cons r rs ih =>
    intro s₁ s₂ h
    have hc : s₁.contains r.chunk_id = s₂.contains r.chunk_id := by
      rw [Bool.eq_iff_iff, List.elem_iff, List.elem_iff]
      exact h r.chunk_id
    unfold firstObserved
    rw [hc]
    by_cases h2 : s₂.contains r.chunk_id = true
    · rw [if_pos h2, if_pos h2]
      exact ih s₁ s₂ h
    · rw [if_neg h2, if_neg h2]
      rw [ih (r.chunk_id :: s₁) (r.chunk_id :: s₂) (by
        intro c
        simp only [List.mem_cons]
        rw [h c])]

-- Unfolding equation of `firstObserved` on a cons cell.
theorem firstObserved_cons (r : SearchResult) (rs : List SearchResult) (seen : List Str) :
    firstObserved (r :: rs) seen =
      if seen.contains r.chunk_id = true then firstObserved rs seen
      else r :: firstObserved rs (r.chunk_id :: seen) := rfl

-- Results with fresh, duplicate-free chunk ids pass through `firstObserved`
-- unchanged, and their ids extend the seen set for the remainder.
theorem firstObserved_append_left :
    ∀ (v rest : List SearchResult) (seen : List Str),
      ((v.map (fun r => r.chunk_id)).Nodup) →
      (∀ r ∈ v, r.chunk_id ∉ seen) →
      firstObserved (v ++ rest) seen =
        v ++ firstObserved rest (v.map (fun r => r.chunk_id) ++ seen) := by
  intro v
  induction v with
  | nil => intro rest seen _ _; rfl
  | cons r vs ih =>
    intro rest seen hnd hfresh
    rw [List.map_cons, List.nodup_cons] at hnd
    have hc : seen.contains r.chunk_id = false := by
      rw [Bool.eq_false_iff]
      intro h
      exact hfresh r (List.mem_cons_self _ _) (List.elem_iff.mp h)
    rw [List.cons_append, firstObserved_cons]
    rw [hc]
    simp only [Bool.false_eq_true, if_false]
    rw [ih rest (r.chunk_id :: seen) hnd.2 (by
      intro q hq hmem
      rcases List.mem_cons.mp hmem with h | h
      · exact hnd.1 (List.mem_map.mpr ⟨q, hq, h⟩)
      · exact hfresh q (List.mem_cons_of_mem _ hq) h)]
    rw [List.cons_append]
    have hseq : firstObserved rest (List.map (fun r => r.chunk_id) vs ++ r.chunk_id :: seen)
        = firstObserved rest (List.map (fun r => r.chunk_id) (r :: vs) ++ seen) := by
      apply firstObserved_congr_seen
      intro c
      simp only [List.mem_append, List.mem_cons, List.map_cons]
      tauto
    rw [hseq]

-- Over duplicate-free chunk ids, `firstObserved` is a plain filter against
-- the seen set.
theorem firstObserved_filter :
    ∀ (l : List SearchResult) (seen : List Str), ((l.map (fun r => r.chunk_id)).Nodup) →
      firstObserved l seen = l.filter (fun r => !(seen.contains r.chunk_id)) := by
  intro l
  induction l with
  | nil => intro seen _; rfl
  | cons r rs ih =>
    intro seen hnd
    rw [List.map_cons, List.nodup_cons] at hnd
    unfold firstObserved
    rw [List.filter_cons]
    by_cases hc : seen.contains r.chunk_id = true
    · rw [if_pos hc]
      have : (!(seen.contains r.chunk_id)) = false := by rw [hc]; rfl
      rw [this]
      simp only [Bool.false_eq_true, if_false]
      exact ih seen hnd.2
    · rw [if_neg hc]
      have hcf : seen.contains r.chunk_id = false := Bool.eq_false_iff.mpr hc
      have : (!(seen.contains r.chunk_id)) = true := by rw [hcf]; rfl
      rw [this]
      simp only [if_true]
      rw [ih (r.chunk_id :: seen) hnd.2]
      congr 1
      apply List.filter_congr
      intro q hq
      have hqr : (q.chunk_id == r.chunk_id) = false := by
        rw [beq_eq_false_iff_ne]
        intro h
        exact hnd.1 (List.mem_map.mpr ⟨q, hq, h⟩)
      show (!((r.chunk_id :: seen).contains q.chunk_id)) = (!(seen.contains q.chunk_id))
      rw [show (r.chunk_id :: seen).contains q.chunk_id
          = (q.chunk_id == r.chunk_id || seen.contains q.chunk_id) from rfl]
      rw [hqr, Bool.false_or]

-- Generic transfer between an enumerated filter-map and a plain filter-map.
theorem enumFrom_filter_map_eq {β : Type} :
    ∀ (l : List SearchResult) (n : Nat) (g : SearchResult → Bool)
      (f₁ : Nat × SearchResult → β) (f₂ : SearchResult → β),
      (∀ p ∈ List.enumFrom n l, g p.2 = true → f₁ p = f₂ p.2) →
      ((List.enumFrom n l).filter (fun p => g p.2)).map f₁ = (l.filter g).map f₂ := by
  intro l
  induction l with
  | nil => intro n g f₁ f₂ _; rfl
  | cons x xs ih =>
    intro n g f₁ f₂ h
    rw [List.enumFrom_cons, List.filter_cons, List.filter_cons]
    by_cases hg : g x = true
    · have hg' : g (((n, x) : Nat × SearchResult).2) = true := hg
      rw [if_pos hg', if_pos hg]
      rw [List.map_cons, List.map_cons]
      rw [h (n, x) (List.mem_cons_self _ _) hg']
      rw [ih (n + 1) g f₁ f₂ (fun p hp => h p (List.mem_cons_of_mem _ hp))]
    · have hg' : ¬ g (((n, x) : Nat × SearchResult).2) = true := hg
      rw [if_neg hg', if_neg hg]
      exact ih (n + 1) g f₁ f₂ (fun p hp => h p (List.mem_cons_of_mem _ hp))

-- Generic transfer between an enumerated map and a plain map.
theorem enumFrom_map_eq {β : Type} :
    ∀ (l : List SearchResult) (n : Nat)
      (f₁ : Nat × SearchResult → β) (f₂ : SearchResult → β),
      (∀ p ∈ List.enumFrom n l, f₁ p = f₂ p.2) →
      (List.enumFrom n l).map f₁ = l.map f₂ := by
  intro l
  induction l with
  | nil => intro n f₁ f₂ _; rfl
  | cons x xs ih =>
    intro n f₁ f₂ h
    rw [List.enumFrom_cons, List.map_cons, List.map_cons]
    rw [h (n, x) (List.mem_cons_self _ _)]
    rw [ih (n + 1) f₁ f₂ (fun p hp => h p (List.mem_cons_of_mem _ hp))]

-- The fused `scores` dict, projected to its values, is exactly the
-- first-observation list carrying the spec's summed RRF scores.
theorem rrfState_pairs (v kw : List SearchResult)
    (hv : (v.map (fun r => r.chunk_id)).Nodup)
    (hk : (kw.map (fun r => r.chunk_id)).Nodup) :
    (rrfState v kw).map (fun e => e.2) =
      (firstObserved (v ++ kw) []).map (fun r => (specRRFScore v kw r.chunk_id, r)) := by
  have hsnd : ∀ (l : List SearchResult),
      l.enum.map (fun p => p.2.chunk_id) = l.map (fun r => r.chunk_id) := by
    intro l
    rw [show (fun p : Nat × SearchResult => p.2.chunk_id)
        = ((fun r : SearchResult => r.chunk_id) ∘ Prod.snd) from rfl]
    rw [← List.map_map, List.enum_map_snd]
  have hv' : (v.enum.map (fun p => p.2.chunk_id)).Nodup := by rw [hsnd]; exact hv
  have hk' : (kw.enum.map (fun p => p.2.chunk_id)).Nodup := by rw [hsnd]; exact hk
  have h1 : v.enum.foldl rrfStep1 [] =
      v.enum.map (fun p => (p.2.chunk_id, rrfScore p.1, p.2)) := by
    rw [rrfPass1_closed v.enum [] hv' (fun p _ => rfl)]
    simp
  have h2 := rrfPass2_closed kw.enum
    (v.enum.map (fun p => (p.2.chunk_id, rrfScore p.1, p.2))) hk'
  unfold rrfState
  rw [h1, h2]
  have hkeys : (v.enum.map (fun p => (p.2.chunk_id, rrfScore p.1, p.2))).map
      (fun e => e.1) = v.map (fun r => r.chunk_id) := by
    rw [List.map_map]
    rw [show ((fun e : RRFEntry => e.1)
        ∘ (fun p : Nat × SearchResult => (p.2.chunk_id, rrfScore p.1, p.2)))
        = (fun p : Nat × SearchResult => p.2.chunk_id) from rfl]
    exact hsnd v
  have hRHS : firstObserved (v ++ kw) [] =
      v ++ kw.filter (fun r => !((v.map (fun r => r.chunk_id)).contains r.chunk_id)) := by
    rw [firstObserved_append_left v kw [] hv (by intro r _; simp)]
    rw [List.append_nil]
    rw [firstObserved_filter kw (v.map (fun r => r.chunk_id)) hk]
  rw [hRHS, List.map_append, List.map_append]
  congr 1
  · rw [List.map_map, List.map_map]
    apply enumFrom_map_eq v 0
    intro p hp
    show (p.2.chunk_id, rrfScore p.1 + contribP kw.enum p.2.chunk_id, p.2).2
      = (specRRFScore v kw p.2.chunk_id, p.2)
    have hv1 : contribP v.enum p.2.chunk_id = rrfScore p.1 := by
      unfold contribP
      rw [show v.enum = List.enumFrom 0 v from rfl]
      rw [enumFrom_filter_single v 0 hv p.1 p.2 hp]
      simp
    show (rrfScore p.1 + contribP kw.enum p.2.chunk_id, p.2)
      = (specRRFScore v kw p.2.chunk_id, p.2)
    unfold specRRFScore
    rw [hv1]
  · rw [List.map_map]
    rw [List.filter_congr (fun (p : Nat × SearchResult) _ => by
      rw [hasKey_eq_contains, hkeys] :
        ∀ p ∈ kw.enum, (!(hasKey (v.enum.map (fun p => (p.2.chunk_id, rrfScore p.1, p.2)))
          p.2.chunk_id)) = (!((v.map (fun r => r.chunk_id)).contains p.2.chunk_id)))]
    apply enumFrom_filter_map_eq kw 0
      (fun r => !((v.map (fun r => r.chunk_id)).contains r.chunk_id))
    intro p hp hg
    have hnotin : ∀ q ∈ v.enum, q.2.chunk_id ≠ p.2.chunk_id := by
      intro q hq h
      have hq2 : q.2 ∈ v := by
        rw [← List.enum_map_snd v]
        exact List.mem_map.mpr ⟨q, hq, rfl⟩
      have hcon : (v.map (fun r => r.chunk_id)).contains p.2.chunk_id = true :=
        List.elem_iff.mpr (List.mem_map.mpr ⟨q.2, hq2, h⟩)
      rw [hcon] at hg
      cases hg
    have hv0 : contribP v.enum p.2.chunk_id = 0 := contribP_eq_zero _ _ hnotin
    have hk1 : contribP kw.enum p.2.chunk_id = rrfScore p.1 := by
      unfold contribP
      rw [show kw.enum = List.enumFrom 0 kw from rfl]
      rw [enumFrom_filter_single kw 0 hk p.1 p.2 hp]
      simp
    show (rrfScore p.1, p.2) = (specRRFScore v kw p.2.chunk_id, p.2)
    unfold specRRFScore
    rw [hv0, hk1, zero_add]

-- First-observation deduplication produces pairwise-distinct chunk ids.
theorem firstObserved_nodup :
    ∀ (l : List SearchResult) (seen : List Str),
      ((firstObserved l seen).map (fun r => r.chunk_id)).Nodup ∧
      ∀ r ∈ firstObserved l seen, r.chunk_id ∉ seen := by
  intro l
  induction l with
  | nil => intro seen; constructor <;> simp [firstObserved]
  | cons r rs ih =>
    intro seen
    rw [firstObserved_cons]
    by_cases hc : seen.contains r.chunk_id = true
    · rw [if_pos hc]
      exact ih seen
    · rw [if_neg hc]
      obtain ⟨hnd, hnot⟩ := ih (r.chunk_id :: seen)
      constructor
      · rw [List.map_cons]
        refine List.Nodup.cons ?_ hnd
        intro hmem
        obtain ⟨a, ha, hat⟩ := List.mem_map.mp hmem
        exact (hnot a ha) (hat ▸ List.mem_cons_self _ _)
      · intro a ha
        rcases List.mem_cons.mp ha with rfl | ha'
        · intro hmem
          exact hc (List.elem_iff.mpr hmem)
        · intro hmem
          exact (hnot a ha') (List.mem_cons_of_mem _ hmem)

/-- C1: for every query and `top_k`, `search_hybrid` runs
`search_vector(q, 15)` and `search_keyword(q, 15)` and equals the
specification-side fusion: each distinct chunk id receives the fused score
`Σ 1/(60 + rank + 1)` over its zero-based ranks in both lists (a chunk in
both lists accumulates both contributions), results are stable-sorted by
fused score descending (ties keep first-observation order, vector lane
first), truncated to `top_k`, and each emitted `SearchResult` carries the
metadata of the chunk's first-observed occurrence, the fused score, and
`source = "hybrid"`; the output has at most `top_k` entries and no repeated
chunk id.  (The hypotheses state that each sub-search returns
duplicate-free chunk ids, which the primary keys of `embeddings` and
`chunks` guarantee.) -/
theorem search_hybrid_rrf_spec (env : SearchEnv) (q : Str) (top_k : Nat)
    (hv : ((search_vector env q 15).map (fun r => r.chunk_id)).Nodup)
    (hk : ((search_keyword env q 15).map (fun r => r.chunk_id)).Nodup) :
    search_hybrid env q top_k =
      specHybrid (search_vector env q 15) (search_keyword env q 15) top_k
    ∧ (search_hybrid env q top_k).length ≤ top_k
    ∧ ((search_hybrid env q top_k).map (fun r => r.chunk_id)).Nodup
    ∧ ∀ r ∈ search_hybrid env q top_k, r.source = "hybrid".data := by
  have hfuse : search_hybrid env q top_k =
      rrfFuse (search_vector env q 15) (search_keyword env q 15) top_k := rfl
  have hmain : search_hybrid env q top_k =
      specHybrid (search_vector env q 15) (search_keyword env q 15) top_k := by
    rw [hfuse]
    unfold rrfFuse specHybrid
    rw [rrfState_pairs _ _ hv hk]
  refine ⟨hmain, ?_, ?_, ?_⟩
  · rw [hmain]
    unfold specHybrid
    rw [List.length_map, List.length_take]
    exact Nat.min_le_left _ _
  · rw [hmain]
    unfold specHybrid
    rw [List.map_map]
    have hpairs : (((firstObserved (search_vector env q 15 ++ search_keyword env q 15) []).map
        (fun r => (specRRFScore (search_vector env q 15) (search_keyword env q 15) r.chunk_id, r))).map
          (fun p => p.2.chunk_id)).Nodup := by
      rw [List.map_map]
      exact (firstObserved_nodup _ []).1
    have hperm := List.perm_insertionSort scoreDesc
      ((firstObserved (search_vector env q 15 ++ search_keyword env q 15) []).map
        (fun r => (specRRFScore (search_vector env q 15) (search_keyword env q 15) r.chunk_id, r)))
    have hsortnd : (((List.insertionSort scoreDesc
        ((firstObserved (search_vector env q 15 ++ search_keyword env q 15) []).map
          (fun r => (specRRFScore (search_vector env q 15) (search_keyword env q 15) r.chunk_id, r)))).map
            (fun p => p.2.chunk_id)).Nodup) :=
      ((hperm.map (fun p => p.2.chunk_id)).symm.nodup hpairs)
    have hsub := (List.take_sublist top_k (List.insertionSort scoreDesc
      ((firstObserved (search_vector env q 15 ++ search_keyword env q 15) []).map
        (fun r => (specRRFScore (search_vector env q 15) (search_keyword env q 15) r.chunk_id, r))))).map
          (fun p => p.2.chunk_id)
    exact hsub.nodup hsortnd
  · intro r hr
    rw [hfuse] at hr
    unfold rrfFuse at hr
    obtain ⟨p, _, rfl⟩ := List.mem_map.mp hr
    rfl

/-- Witness for C1's theorem: applied at a populated two-lane environment,
both duplicate-freedom hypotheses discharged by evaluation. -/
theorem search_hybrid_rrf_spec_witness :
    ((search_vector envBoth ("malaria".data) 15).map (fun r => r.chunk_id)).Nodup
    ∧ ((search_keyword envBoth ("malaria".data) 15).map (fun r => r.chunk_id)).Nodup
    ∧ (search_hybrid envBoth ("malaria".data) 5 =
        specHybrid (search_vector envBoth ("malaria".data) 15)
          (search_keyword envBoth ("malaria".data) 15) 5
      ∧ (search_hybrid envBoth ("malaria".data) 5).length ≤ 5
      ∧ ((search_hybrid envBoth ("malaria".data) 5).map (fun r => r.chunk_id)).Nodup
      ∧ ∀ r ∈ search_hybrid envBoth ("malaria".data) 5, r.source = "hybrid".data) :=
  ⟨by decide, by decide,
    search_hybrid_rrf_spec envBoth ("malaria".data) 5 (by decide) (by decide)⟩

-- RRF scores strictly decrease with rank.
theorem rrfScore_lt (i j : Nat) (h : i < j) : rrfScore j < rrfScore i := by
  unfold rrfScore RRF_K
  have hpos : (0 : ℚ) < 60 + (i : ℚ) + 1 := by positivity
  have hlt : (60 : ℚ) + (i : ℚ) + 1 < 60 + (j : ℚ) + 1 := by
    have hc : (i : ℚ) < (j : ℚ) := by exact_mod_cast h
    linarith
  exact one_div_lt_one_div_of_lt hpos hlt

-- Enumerated indices are strictly increasing.
theorem enumFrom_pairwise_lt :
    ∀ (l : List SearchResult) (n : Nat),
      (List.enumFrom n l).Pairwise (fun p q => p.1 < q.1) := by
  intro l
  induction l with
  | nil => intro n; simp
  | cons x xs ih =>
    intro n
    rw [List.enumFrom_cons]
    refine List.Pairwise.cons ?_ (ih (n + 1))
    intro q hq
    obtain ⟨i, y⟩ := q
    obtain ⟨h1, _, _⟩ := List.mem_enumFrom hq
    exact Nat.lt_of_lt_of_le (Nat.lt_succ_self n) h1

/-- C10: when the embedder or the vector extension is unavailable,
`search_vector` returns the empty list for every query and `k`, and
`search_hybrid` degrades to the keyword-only ranking: the chunk ids it
returns are exactly the first `top_k` chunk ids of `search_keyword(q, 15)`,
in keyword order.  (The second hypothesis states that the keyword lane
returns duplicate-free chunk ids, guaranteed by the primary key of
`chunks`.) -/
theorem search_vector_unavailable_spec (env : SearchEnv) (q : Str) (k top_k : Nat)
    (h : env.hasEmbedder = false ∨ env.hasVec = false)
    (hk : ((search_keyword env q 15).map (fun r => r.chunk_id)).Nodup) :
    search_vector env q k = []
    ∧ (search_hybrid env q top_k).map (fun r => r.chunk_id) =
        ((search_keyword env q 15).map (fun r => r.chunk_id)).take top_k := by
  have hvec : ∀ m, search_vector env q m = [] := by
    intro m
    unfold search_vector search_vectorT
    rcases h with h | h <;> rw [h] <;> simp
  refine ⟨hvec k, ?_⟩
  have hsnd : ∀ (l : List SearchResult),
      l.enum.map (fun p => p.2.chunk_id) = l.map (fun r => r.chunk_id) := by
    intro l
    rw [show (fun p : Nat × SearchResult => p.2.chunk_id)
        = ((fun r : SearchResult => r.chunk_id) ∘ Prod.snd) from rfl]
    rw [← List.map_map, List.enum_map_snd]
  have hk' : ((search_keyword env q 15).enum.map (fun p => p.2.chunk_id)).Nodup := by
    rw [hsnd]
    exact hk
  have hfuse : search_hybrid env q top_k =
      rrfFuse (search_vector env q 15) (search_keyword env q 15) top_k := rfl
  rw [hfuse, hvec 15]
  unfold rrfFuse
  have hstate : rrfState [] (search_keyword env q 15) =
      (search_keyword env q 15).enum.map (fun p => (p.2.chunk_id, rrfScore p.1, p.2)) := by
    unfold rrfState
    rw [show (([] : List SearchResult).enum.foldl rrfStep1 []) = ([] : List RRFEntry) from rfl]
    rw [rrfPass2_closed _ [] hk']
    rw [show (fun p : Nat × SearchResult => !(hasKey [] p.2.chunk_id))
        = (fun _ : Nat × SearchResult => true) from rfl]
    rw [List.filter_true]
    simp
  rw [hstate]
  rw [List.map_map, List.map_map]
  rw [show ((fun e : RRFEntry => e.2)
      ∘ (fun p : Nat × SearchResult => (p.2.chunk_id, rrfScore p.1, p.2)))
      = (fun p : Nat × SearchResult => ((rrfScore p.1, p.2) : ℚ × SearchResult)) from rfl]
  have hsorted : ((search_keyword env q 15).enum.map
      (fun p => ((rrfScore p.1, p.2) : ℚ × SearchResult))).Pairwise scoreDesc := by
    apply List.Pairwise.map _ ?_ (enumFrom_pairwise_lt (search_keyword env q 15) 0)
    intro a b hab
    exact le_of_lt (rrfScore_lt a.1 b.1 hab)
  rw [List.Sorted.insertionSort_eq hsorted]
  rw [show ((fun r : SearchResult => r.chunk_id) ∘ mkHybrid)
      = (fun p : ℚ × SearchResult => p.2.chunk_id) from rfl]
  rw [List.map_take]
  rw [List.map_map]
  rw [show ((fun p : ℚ × SearchResult => p.2.chunk_id)
      ∘ (fun p : Nat × SearchResult => ((rrfScore p.1, p.2) : ℚ × SearchResult)))
      = (fun p : Nat × SearchResult => p.2.chunk_id) from rfl]
  rw [hsnd]

/-- Witness for C10's theorem: applied at the keyword-only environment,
both hypotheses discharged by evaluation. -/
theorem search_vector_unavailable_spec_witness :
    (envKwOnly.hasEmbedder = false ∨ envKwOnly.hasVec = false)
    ∧ ((search_keyword envKwOnly ("malaria".data) 15).map (fun r => r.chunk_id)).Nodup
    ∧ (search_vector envKwOnly ("malaria".data) 4 = []
      ∧ (search_hybrid envKwOnly ("malaria".data) 3).map (fun r => r.chunk_id) =
          ((search_keyword envKwOnly ("malaria".data) 15).map (fun r => r.chunk_id)).take 3) :=
  ⟨Or.inl (by decide), by decide,
    search_vector_unavailable_spec envKwOnly ("malaria".data) 4 3 (Or.inl (by decide)) (by decide)⟩

/-- C4 (amended): for an empty or all-whitespace query, `search_keyword`
returns `[]` without contacting the FTS index, and `search_hybrid` degrades
to the vector-only ranking: its chunk ids are the first `top_k` chunk ids of
`search_vector(q, 15)` in vector order, so for `top_k > 0` it is empty
exactly when the vector sub-search returns nothing; for `top_k = 0`,
`search_hybrid` returns `[]` for every query, but the two sub-searches are
still issued — the vector index is contacted whenever the embedder and
sqlite-vec are available, and the FTS index whenever the query has terms.
(The hypothesis states that the vector lane returns duplicate-free chunk
ids, guaranteed by the primary key of `embeddings`.) -/
theorem search_edge_cases_amended (env : SearchEnv) (q : Str) (k top_k : Nat)
    (hv : ((search_vector env q 15).map (fun r => r.chunk_id)).Nodup) :
    (queryTerms q = [] →
      search_keywordT env q k = ([], false)
      ∧ (search_hybrid env q top_k).map (fun r => r.chunk_id) =
          ((search_vector env q 15).map (fun r => r.chunk_id)).take top_k
      ∧ (0 < top_k →
          (search_hybrid env q top_k = [] ↔ search_vector env q 15 = [])))
    ∧ search_hybrid env q 0 = []
    ∧ (search_hybridT env q 0).2.1 = (env.hasEmbedder && env.hasVec)
    ∧ (search_hybridT env q 0).2.2 = !(queryTerms q).isEmpty := by
  refine ⟨?_, ?_, ?_, ?_⟩
  · intro hq
    have hkw : ∀ m, search_keywordT env q m = ([], false) := by
      intro m
      unfold search_keywordT
      rw [hq]
      simp
    have hkw15 : search_keyword env q 15 = [] := by
      unfold search_keyword
      rw [hkw 15]
    have hsnd : ∀ (l : List SearchResult),
        l.enum.map (fun p => p.2.chunk_id) = l.map (fun r => r.chunk_id) := by
      intro l
      rw [show (fun p : Nat × SearchResult => p.2.chunk_id)
          = ((fun r : SearchResult => r.chunk_id) ∘ Prod.snd) from rfl]
      rw [← List.map_map, List.enum_map_snd]
    have hv' : ((search_vector env q 15).enum.map (fun p => p.2.chunk_id)).Nodup := by
      rw [hsnd]
      exact hv
    have hpass : (search_hybrid env q top_k).map (fun r => r.chunk_id) =
        ((search_vector env q 15).map (fun r => r.chunk_id)).take top_k := by
      have hfuse : search_hybrid env q top_k =
          rrfFuse (search_vector env q 15) (search_keyword env q 15) top_k := rfl
      rw [hfuse, hkw15]
      unfold rrfFuse
      have hstate : rrfState (search_vector env q 15) [] =
          (search_vector env q 15).enum.map
            (fun p => (p.2.chunk_id, rrfScore p.1, p.2)) := by
        unfold rrfState
        rw [show ([] : List SearchResult).enum = ([] : List (Nat × SearchResult)) from rfl]
        rw [List.foldl_nil]
        rw [rrfPass1_closed _ [] hv' (fun p _ => rfl)]
        simp
      rw [hstate]
      rw [List.map_map, List.map_map]
      rw [show ((fun e : RRFEntry => e.2)
          ∘ (fun p : Nat × SearchResult => (p.2.chunk_id, rrfScore p.1, p.2)))
          = (fun p : Nat × SearchResult => ((rrfScore p.1, p.2) : ℚ × SearchResult)) from rfl]
      have hsorted : ((search_vector env q 15).enum.map
          (fun p => ((rrfScore p.1, p.2) : ℚ × SearchResult))).Pairwise scoreDesc := by
        apply List.Pairwise.map _ ?_ (enumFrom_pairwise_lt (search_vector env q 15) 0)
        intro a b hab
        exact le_of_lt (rrfScore_lt a.1 b.1 hab)
      rw [List.Sorted.insertionSort_eq hsorted]
      rw [show ((fun r : SearchResult => r.chunk_id) ∘ mkHybrid)
          = (fun p : ℚ × SearchResult => p.2.chunk_id) from rfl]
      rw [List.map_take]
      rw [List.map_map]
      rw [show ((fun p : ℚ × SearchResult => p.2.chunk_id)
          ∘ (fun p : Nat × SearchResult => ((rrfScore p.1, p.2) : ℚ × SearchResult)))
          = (fun p : Nat × SearchResult => p.2.chunk_id) from rfl]
      rw [hsnd]
    refine ⟨hkw k, hpass, ?_⟩
    intro htop
    constructor
    · intro hh
      have h1 : ((search_vector env q 15).map (fun r => r.chunk_id)).take top_k = [] := by
        rw [← hpass, hh]
        rfl
      have h2 : (search_vector env q 15).map (fun r => r.chunk_id) = [] := by
        rcases List.take_eq_nil_iff.mp h1 with h0 | h0
        · omega
        · exact h0
      exact List.map_eq_nil_iff.mp h2
    · intro hh
      have h1 : (search_hybrid env q top_k).map (fun r => r.chunk_id) = [] := by
        rw [hpass, hh]
        simp
      exact List.map_eq_nil_iff.mp h1
  · unfold search_hybrid search_hybridT rrfFuse
    simp
  · cases hE : env.hasEmbedder <;> cases hV : env.hasVec <;>
      simp [search_hybridT, search_vectorT, hE, hV]
  · cases ht : (queryTerms q).isEmpty <;> cases hf : env.ftsOk <;>
      simp [search_hybridT, search_keywordT, ht, hf]

/-- Witness for C4's amended theorem: applied at a populated environment and
the whitespace query; the Nodup hypothesis and the inner whitespace
hypothesis are both discharged non-vacuously there (the vector lane returns
one chunk). -/
theorem search_edge_cases_amended_witness :
    ((search_vector envBoth (" ".data) 15).map (fun r => r.chunk_id)).Nodup
    ∧ ((queryTerms (" ".data) = [] →
        search_keywordT envBoth (" ".data) 5 = ([], false)
        ∧ (search_hybrid envBoth (" ".data) 7).map (fun r => r.chunk_id) =
            ((search_vector envBoth (" ".data) 15).map (fun r => r.chunk_id)).take 7
        ∧ (0 < 7 →
            (search_hybrid envBoth (" ".data) 7 = []
              ↔ search_vector envBoth (" ".data) 15 = [])))
      ∧ search_hybrid envBoth (" ".data) 0 = []
      ∧ (search_hybridT envBoth (" ".data) 0).2.1
          = (envBoth.hasEmbedder && envBoth.hasVec)
      ∧ (search_hybridT envBoth (" ".data) 0).2.2
          = !(queryTerms (" ".data)).isEmpty) :=
  ⟨by decide, search_edge_cases_amended envBoth (" ".data) 5 7 (by decide)⟩
